import Mathlib

/-!
Verification of the Xcode project-manifest patcher `add_missing_files.py`.

The script mutates a `project.pbxproj` manifest: it mints identifiers from
`uuid.uuid4()`, inserts `PBXBuildFile` and `PBXFileReference` records, adds
group-membership lines to the `Core/Services` and `ViewControllers` groups and
build-phase-membership lines to the `Sources` build phase, all by regex search
and string replacement over the raw manifest text.

The embedding models manifest text as `List Char` and mirrors the Python
string/regex operations the script uses:
`re.search(begin(.*?)end, DOTALL)`, `str.replace` (all occurrences, scanning
left to right), `str.rstrip`, and the two block patterns
`lit[^}]+children = ([^)]*` / `lit[^}]+files = ([^)]*` with
leftmost-then-greedy semantics.
-/

abbrev Str := List Char

def str (s : String) : Str := s.data

/-- Python whitespace characters stripped by `str.rstrip()` (ASCII subset). -/
def isPySpace (c : Char) : Bool :=
  c == ' ' || c == '\t' || c == '\n' || c == '\x0d' || c == '\x0b' || c == '\x0c'

/-- `s.rstrip()`: remove all trailing whitespace. -/
def rstrip (s : Str) : Str := (s.reverse.dropWhile isPySpace).reverse

/-- Scanning pass for `splitFirst`: `acc` holds the characters already
passed over, in reverse.  Tail recursive so that concrete evaluation is
iterative. -/
def splitFirstGo (pat : Str) : Str → Str → Option (Str × Str)
  | acc, [] => if pat.isPrefixOf ([] : Str) then some (acc.reverse, []) else none
  | acc, c :: t =>
    if pat.isPrefixOf (c :: t) then some (acc.reverse, (c :: t).drop pat.length)
    else splitFirstGo pat (c :: acc) t

/-- First occurrence of `pat` in `s`: returns `(a, b)` with `s = a ++ pat ++ b`
and `a` shortest.  Mirrors the leftmost-match rule of `re.search` for a
literal pattern (and Python `str.find`). -/
def splitFirst (pat s : Str) : Option (Str × Str) := splitFirstGo pat [] s

/-- Scanning pass for `splitLast`: remembers the most recent match, so the
last one wins. -/
def splitLastGo (pat : Str) : Option (Str × Str) → Str → Str → Option (Str × Str)
  | best, acc, [] => if pat.isPrefixOf ([] : Str) then some (acc.reverse, []) else best
  | best, acc, c :: t =>
    splitLastGo pat
      (if pat.isPrefixOf (c :: t) then some (acc.reverse, (c :: t).drop pat.length) else best)
      (c :: acc) t

/-- Last occurrence of `pat` in `s` (used to model greedy backtracking of
`[^}]+` before a literal). -/
def splitLast (pat s : Str) : Option (Str × Str) := splitLastGo pat none [] s

/-- Last occurrence of `pat` in `s` that starts at position at least 1
(the `[^}]+` in the block patterns requires one or more characters). -/
def splitLastPos (pat : Str) : Str → Option (Str × Str)
  | [] => none
  | c :: t => (splitLast pat t).map fun p => (c :: p.1, p.2)

theorem isPrefixOf_decomp : ∀ (p s : Str), p.isPrefixOf s = true → s = p ++ s.drop p.length
  | [], _, _ => rfl
  | _ :: _, [], h => by simp [List.isPrefixOf] at h
  | a :: p, b :: s, h => by
    simp only [List.isPrefixOf, Bool.and_eq_true, beq_iff_eq] at h
    obtain ⟨rfl, h2⟩ := h
    simpa [List.length_cons] using isPrefixOf_decomp p s h2

theorem splitFirstGo_shift {pat : Str} : ∀ (s acc : Str),
    splitFirstGo pat acc s = (splitFirst pat s).map fun p => (acc.reverse ++ p.1, p.2)
  | [], acc => by
    simp only [splitFirst, splitFirstGo]
    split <;> simp
  | c :: t, acc => by
    simp only [splitFirst, splitFirstGo]
    split
    · simp
    · rw [splitFirstGo_shift t (c :: acc), splitFirstGo_shift t [c]]
      cases splitFirst pat t <;> simp

theorem splitFirst_nil {pat : Str} :
    splitFirst pat [] = if pat.isPrefixOf ([] : Str) then some ([], []) else none := rfl

theorem splitFirst_cons {pat : Str} {c : Char} {t : Str} :
    splitFirst pat (c :: t) =
      if pat.isPrefixOf (c :: t) then some ([], (c :: t).drop pat.length)
      else (splitFirst pat t).map fun p => (c :: p.1, p.2) := by
  show splitFirstGo pat [] (c :: t) = _
  simp only [splitFirstGo]
  split
  · simp
  · rw [splitFirstGo_shift t [c]]
    rfl

theorem splitFirst_sound {pat s a b : Str}
    (h : splitFirst pat s = some (a, b)) : s = a ++ pat ++ b := by
  induction s generalizing a b with
  | nil =>
    rw [splitFirst_nil] at h
    split at h
    · rename_i hp
      simp only [Option.some.injEq, Prod.mk.injEq] at h
      obtain ⟨rfl, rfl⟩ := h
      simpa using isPrefixOf_decomp pat [] hp
    · simp at h
  | cons c t ih =>
    rw [splitFirst_cons] at h
    split at h
    · rename_i hp
      simp only [Option.some.injEq, Prod.mk.injEq] at h
      obtain ⟨rfl, rfl⟩ := h
      simpa using isPrefixOf_decomp pat (c :: t) hp
    · match hrec : splitFirst pat t with
      | none => rw [hrec] at h; simp at h
      | some (a', b') =>
        rw [hrec] at h
        simp only [Option.map_some', Option.some.injEq, Prod.mk.injEq] at h
        obtain ⟨rfl, rfl⟩ := h
        simp [ih hrec]

/-- One scanning pass of Python `s.replace(old, new)` for non-empty `old`:
`k` counts characters of the previously matched occurrence still to be
consumed (non-overlapping, left-to-right). -/
def replaceAllGo (old new : Str) : Str → Nat → Str
  | [], _ => []
  | _ :: t, k + 1 => replaceAllGo old new t k
  | c :: t, 0 =>
    if old.isPrefixOf (c :: t) then new ++ replaceAllGo old new t (old.length - 1)
    else c :: replaceAllGo old new t 0

/-- Python `s.replace(old, new)`: replaces every (non-overlapping,
left-to-right) occurrence.  For `old = ""` Python inserts `new` before every
character and at the end, which the first branch reproduces. -/
def replaceAll (old new : Str) (s : Str) : Str :=
  if old = [] then new ++ (s.map fun c => c :: new).flatten
  else replaceAllGo old new s 0

theorem splitFirst_nil_iff {pat : Str} {c : Char} {t : Str} :
    splitFirst pat (c :: t) = none ↔
      pat.isPrefixOf (c :: t) = false ∧ splitFirst pat t = none := by
  rw [splitFirst_cons]
  constructor
  · intro h
    split at h
    · simp at h
    · rename_i hp
      refine ⟨Bool.eq_false_iff.mpr hp, ?_⟩
      match hrec : splitFirst pat t with
      | none => rfl
      | some p => rw [hrec] at h; simp at h
  · intro ⟨h1, h2⟩
    rw [if_neg (by simp [h1]), h2]
    rfl

theorem replaceAllGo_none {old new s : Str}
    (h : splitFirst old s = none) : replaceAllGo old new s 0 = s := by
  induction s with
  | nil => rfl
  | cons c t ih =>
    obtain ⟨h1, h2⟩ := splitFirst_nil_iff.mp h
    simp only [replaceAllGo]
    rw [if_neg (by simp [h1]), ih h2]

theorem replaceAllGo_skip {old new : Str} : ∀ (u y : Str),
    replaceAllGo old new (u ++ y) u.length = replaceAllGo old new y 0
  | [], _ => rfl
  | _ :: u, y => by
    simp only [List.cons_append, List.length_cons, replaceAllGo]
    exact replaceAllGo_skip u y

theorem replaceAll_single {old new s a b : Str} (h0 : old ≠ [])
    (h1 : splitFirst old s = some (a, b)) (h2 : splitFirst old b = none) :
    replaceAll old new s = a ++ new ++ b := by
  rw [replaceAll, if_neg h0]
  induction s generalizing a with
  | nil =>
    exfalso
    rw [splitFirst_nil] at h1
    split at h1
    · rename_i hp
      cases old with
      | nil => exact h0 rfl
      | cons o os => simp [List.isPrefixOf] at hp
    · simp at h1
  | cons c t ih =>
    rw [splitFirst_cons] at h1
    split at h1
    · rename_i hp
      simp only [Option.some.injEq, Prod.mk.injEq] at h1
      obtain ⟨rfl, rfl⟩ := h1
      cases old with
      | nil => exact absurd rfl h0
      | cons o os =>
        have hd : (c :: t).drop (o :: os).length = t.drop os.length := by
          simp [List.length_cons]
        rw [hd] at h2 ⊢
        simp only [List.isPrefixOf, Bool.and_eq_true, beq_iff_eq] at hp
        obtain ⟨rfl, hos⟩ := hp
        have hpre : (o :: os).isPrefixOf (o :: t) = true := by
          simp [List.isPrefixOf, hos]
        simp only [replaceAllGo]
        rw [if_pos hpre]
        have hlen : (o :: os).length - 1 = os.length := by simp
        rw [hlen]
        have ht : t = os ++ t.drop os.length := isPrefixOf_decomp os t hos
        conv_lhs => rw [ht]
        rw [replaceAllGo_skip os (t.drop os.length), replaceAllGo_none h2]
        simp
    · rename_i hp
      match hrec : splitFirst old t with
      | none => rw [hrec] at h1; simp at h1
      | some (a', b') =>
        rw [hrec] at h1
        simp only [Option.map_some', Option.some.injEq, Prod.mk.injEq] at h1
        obtain ⟨rfl, rfl⟩ := h1
        simp only [replaceAllGo]
        rw [if_neg hp, ih hrec]
        simp

/-- `re.search(begin(.*?)end, content, DOTALL)` for literal markers:
leftmost occurrence of `bm`, then shortest lazy body up to the first
following `em`.  Returns `(before, body, after)`. -/
def findBetween (bm em s : Str) : Option (Str × Str × Str) :=
  match splitFirst bm s with
  | none => none
  | some (a, r) =>
    match splitFirst em r with
    | none => none
    | some (body, c) => some (a, body, c)

theorem findBetween_sound {bm em s a body c : Str}
    (h : findBetween bm em s = some (a, body, c)) : s = a ++ bm ++ body ++ em ++ c := by
  unfold findBetween at h
  split at h
  · simp at h
  · rename_i p h1
    split at h
    · simp at h
    · rename_i q h2
      simp only [Option.some.injEq, Prod.mk.injEq] at h
      obtain ⟨rfl, rfl, rfl⟩ := h
      have e1 := splitFirst_sound h1
      have e2 := splitFirst_sound h2
      simp [e1, e2]

/-- The maximal run of non-`}` characters (the `[^}]+` region). -/
def bracesRun (s : Str) : Str := s.takeWhile fun c => c != '}'

/-- The maximal run of non-`)` characters (the `[^)]*` region). -/
def parenRun (s : Str) : Str := s.takeWhile fun c => c != ')'

/-- Model of `re.search(r'(lit[^}]+inner[^)]*)', s).group(1)` for the literal
`lit`/`inner` pieces used by the script (`inner` contains neither `}` nor `)`;
neither literal overlaps itself): scan left to right for an occurrence of
`lit`; at each one, greedy `[^}]+` followed by `inner` means `inner` is taken
at its last feasible position inside the brace-free run after `lit` (at offset
at least 1), then `[^)]*` takes the maximal paren-free run; if the rest of the
pattern cannot match here, resume scanning one character further on. -/
def matchBlock (lit inner : Str) : Str → Option Str
  | [] => none
  | c :: t =>
    if lit.isPrefixOf (c :: t) then
      match splitLastPos inner (bracesRun ((c :: t).drop lit.length)) with
      | some (x, _) =>
        some (lit ++ x ++ inner ++
          parenRun (((c :: t).drop lit.length).drop (x.length + inner.length)))
      | none => matchBlock lit inner t
    else matchBlock lit inner t

/-! ## The script's data: files to add, identifier minting, record templates -/

/-- The five hardcoded files the script registers (display name, path).
The `path` field is carried but, as in the source, never used when rendering
records (the file-reference template uses the display name as its `path`). -/
def files_to_add : List (Str × Str) :=
  [(str "AutomaticSegmentationService.swift",
    str "iOS_DICOMViewer/Core/Services/AutomaticSegmentationService.swift"),
   (str "UrinaryTractSegmentationService.swift",
    str "iOS_DICOMViewer/Core/Services/UrinaryTractSegmentationService.swift"),
   (str "CoreMLSegmentationService.swift",
    str "iOS_DICOMViewer/Core/Services/CoreMLSegmentationService.swift"),
   (str "ModernStudyCell.swift",
    str "iOS_DICOMViewer/ViewControllers/ModernStudyCell.swift"),
   (str "StudyHeaderView.swift",
    str "iOS_DICOMViewer/ViewControllers/StudyHeaderView.swift")]

/-- `str(uuid.uuid4()).replace('-', '').upper()[:24]`: strip hyphens from the
raw draw, uppercase, keep the first 24 characters.  The raw draw is supplied
by the generator `gen`; the script never checks the result against the
manifest. -/
def mkId (u : Str) : Str := ((u.filter fun c => c != '-').map Char.toUpper).take 24

/-- The `file_refs` dict: one freshly drawn identifier per display name.
Draws are consumed in loop order: file ref then build ref for each file, so
file `i` uses draws `2*i` and `2*i+1`. -/
def file_refs (gen : Nat → Str) : List (Str × Str) :=
  files_to_add.enum.map fun p => (p.2.1, mkId (gen (2 * p.1)))

/-- The `build_refs` dict: the second draw of each loop iteration. -/
def build_refs (gen : Nat → Str) : List (Str × Str) :=
  files_to_add.enum.map fun p => (p.2.1, mkId (gen (2 * p.1 + 1)))

/-- Dict lookup; every name used is a key of the dict, so the default is
never reached. -/
def lookupRef (m : List (Str × Str)) (k : Str) : Str := (m.lookup k).getD []

/-- The body (everything up to the trailing newline) of a `PBXBuildFile`
record line (source line 58). -/
def buildFileRecordBody (bid fid name : Str) : Str :=
  str "\t\t" ++ bid ++ str " /* " ++ name ++
    str " in Sources */ = \x7bisa = PBXBuildFile; fileRef = " ++ fid ++
    str " /* " ++ name ++ str " */; \x7d;"

/-- A `PBXBuildFile` record line (source line 58). -/
def buildFileLine (bid fid name : Str) : Str :=
  buildFileRecordBody bid fid name ++ str "\n"

/-- The body of a `PBXFileReference` record line (source line 72). -/
def fileRefRecordBody (fid name : Str) : Str :=
  str "\t\t" ++ fid ++ str " /* " ++ name ++
    str " */ = \x7bisa = PBXFileReference; lastKnownFileType = sourcecode.swift; path = " ++
    name ++ str "; sourceTree = \"<group>\"; \x7d;"

/-- A `PBXFileReference` record line (source line 72). -/
def fileRefLine (fid name : Str) : Str :=
  fileRefRecordBody fid name ++ str "\n"

/-- A group-membership line (source lines 82-84, 91-92): note the leading
newline and the absence of a trailing one. -/
def childLine (fid name : Str) : Str :=
  str "\n\t\t\t\t" ++ fid ++ str " /* " ++ name ++ str " */,"

/-- A `Sources` build-phase membership line (source line 101). -/
def sourcesLine (bid name : Str) : Str :=
  str "\n\t\t\t\t" ++ bid ++ str " /* " ++ name ++ str " in Sources */,"

def nameAuto : Str := str "AutomaticSegmentationService.swift"
def nameUrinary : Str := str "UrinaryTractSegmentationService.swift"
def nameCoreML : Str := str "CoreMLSegmentationService.swift"
def nameModern : Str := str "ModernStudyCell.swift"
def nameHeader : Str := str "StudyHeaderView.swift"

def beginBuildFile : Str := str "/* Begin PBXBuildFile section */"
def endBuildFile : Str := str "/* End PBXBuildFile section */"
def beginFileRef : Str := str "/* Begin PBXFileReference section */"
def endFileRef : Str := str "/* End PBXFileReference section */"
def litServices : Str := str "/* Core/Services */ = \x7b"
def litViewControllers : Str := str "/* ViewControllers */ = \x7b"
def litSources : Str := str "/* Sources */ = \x7b"
def innerChildren : Str := str "children = ("
def innerFiles : Str := str "files = ("

/-- The `new_build_entries` accumulator of source lines 56-58, one line per
file in list order. -/
def buildEntryLines (frs brs : List (Str × Str)) : List Str :=
  files_to_add.map fun f => buildFileLine (lookupRef brs f.1) (lookupRef frs f.1) f.1

def newBuildEntries (frs brs : List (Str × Str)) : Str := (buildEntryLines frs brs).flatten

/-- The `new_file_entries` accumulator of source lines 70-72. -/
def fileRefEntryLines (frs : List (Str × Str)) : List Str :=
  files_to_add.map fun f => fileRefLine (lookupRef frs f.1) f.1

def newFileRefEntries (frs : List (Str × Str)) : Str := (fileRefEntryLines frs).flatten

/-- The three `Core/Services` group additions of source lines 82-84. -/
def servicesLines (frs : List (Str × Str)) : List Str :=
  [childLine (lookupRef frs nameAuto) nameAuto,
   childLine (lookupRef frs nameUrinary) nameUrinary,
   childLine (lookupRef frs nameCoreML) nameCoreML]

def newServicesText (frs : List (Str × Str)) : Str := (servicesLines frs).flatten

/-- The two `ViewControllers` group additions of source lines 91-92. -/
def vcLines (frs : List (Str × Str)) : List Str :=
  [childLine (lookupRef frs nameModern) nameModern,
   childLine (lookupRef frs nameHeader) nameHeader]

def newVCText (frs : List (Str × Str)) : Str := (vcLines frs).flatten

/-- The `Sources` build-phase additions of source lines 99-101. -/
def sourcesLinesList (brs : List (Str × Str)) : List Str :=
  files_to_add.map fun f => sourcesLine (lookupRef brs f.1) f.1

def newSourcesText (brs : List (Str × Str)) : Str := (sourcesLinesList brs).flatten

/-! ## The five in-memory patch steps (source lines 51-102) -/

/-- Source lines 51-62: locate the `PBXBuildFile` section; if found, replace
its body by `body.rstrip() + "\n" + new_build_entries` everywhere the body
occurs; if the markers are missing, leave the text unchanged. -/
def stepBuildFile (frs brs : List (Str × Str)) (content : Str) : Str :=
  match findBetween beginBuildFile endBuildFile content with
  | some (_, body, _) =>
      replaceAll body (rstrip body ++ str "\n" ++ newBuildEntries frs brs) content
  | none => content

/-- Source lines 64-76: same treatment for the `PBXFileReference` section. -/
def stepFileRef (frs : List (Str × Str)) (content : Str) : Str :=
  match findBetween beginFileRef endFileRef content with
  | some (_, body, _) =>
      replaceAll body (rstrip body ++ str "\n" ++ newFileRefEntries frs) content
  | none => content

/-- Source lines 78-85: append three membership lines to the matched
`Core/Services` group prefix; skip silently if the pattern does not match. -/
def stepServices (frs : List (Str × Str)) (content : Str) : Str :=
  match matchBlock litServices innerChildren content with
  | some g => replaceAll g (g ++ newServicesText frs) content
  | none => content

/-- Source lines 87-93: same for the `ViewControllers` group. -/
def stepViewControllers (frs : List (Str × Str)) (content : Str) : Str :=
  match matchBlock litViewControllers innerChildren content with
  | some g => replaceAll g (g ++ newVCText frs) content
  | none => content

/-- Source lines 95-102: same for the `Sources` build phase (`files = (`). -/
def stepSources (brs : List (Str × Str)) (content : Str) : Str :=
  match matchBlock litSources innerFiles content with
  | some g => replaceAll g (g ++ newSourcesText brs) content
  | none => content

/-- The in-memory content transformation of `add_files_to_xcode_project`
(source lines 42-102), parameterised by the stream of raw `uuid4` draws. -/
def add_files_to_xcode_project (gen : Nat → Str) (content : Str) : Str :=
  stepSources (build_refs gen)
    (stepViewControllers (file_refs gen)
      (stepServices (file_refs gen)
        (stepFileRef (file_refs gen)
          (stepBuildFile (file_refs gen) (build_refs gen) content))))

/-! ## The I/O behaviour of one invocation (source lines 8-16, 104-110) -/

inductive RunEvent where
  | readFile (path content : Str)
  | copyFile (src dst content : Str)
  | writeFile (path content : Str)
  | printLine (l : Str)
deriving DecidableEq

def project_file : Str :=
  str "/Users/leandroalmeida/iOS_DICOM/iOS_DICOMViewer.xcodeproj/project.pbxproj"

def backup_path : Str := project_file ++ str ".backup_add_files"

/-- The success summary printed at source lines 108-110. -/
def summaryLines : List Str :=
  str "Added missing files to Xcode project:" :: (files_to_add.map fun f => str "  - " ++ f.1)

/-- I/O trace of one script invocation: read the manifest, copy it verbatim
to the backup path, write the patched content back, print the summary.
`backupOk = false` models `shutil.copy` raising: the uncaught exception
aborts the script before anything else happens, so no write occurs. -/
def runScript (backupOk : Bool) (gen : Nat → Str) (disk : Str) : List RunEvent :=
  RunEvent.readFile project_file disk ::
    if backupOk then
      RunEvent.copyFile project_file backup_path disk ::
      RunEvent.writeFile project_file (add_files_to_xcode_project gen disk) ::
      summaryLines.map RunEvent.printLine
    else []

/-! ## Structural lemmas about the steps -/

theorem ne_nil_of_splitFirst_marker {B content p bm rest : Str} (hbm : bm ≠ [])
    (h1 : splitFirst B content = some (p ++ bm, rest)) : B ≠ [] := by
  intro hBe
  subst hBe
  have : splitFirst ([] : Str) content = some ([], content) := by
    cases content with
    | nil => rfl
    | cons c t =>
      rw [splitFirst_cons]
      simp [List.isPrefixOf]
  rw [this] at h1
  simp only [Option.some.injEq, Prod.mk.injEq] at h1
  exact hbm (List.append_eq_nil.mp h1.1.symm).2

/-- Replacing a section body that occurs exactly once (first at the located
span, nowhere afterwards) rewrites just that span. -/
theorem replace_body {B content p bm em r new : Str} (hbm : bm ≠ [])
    (h1 : splitFirst B content = some (p ++ bm, em ++ r))
    (h2 : splitFirst B (em ++ r) = none) :
    replaceAll B new content = p ++ bm ++ new ++ em ++ r := by
  rw [replaceAll_single (ne_nil_of_splitFirst_marker hbm h1) h1 h2]
  simp [List.append_assoc]

/-- Replacing a matched group prefix `g` by `g ++ lines` appends `lines`
right after `g` when `g` occurs exactly once. -/
theorem replace_block {g content u v lines : Str} (hg : g ≠ [])
    (h1 : splitFirst g content = some (u, v)) (h2 : splitFirst g v = none) :
    replaceAll g (g ++ lines) content = u ++ g ++ lines ++ v := by
  rw [replaceAll_single hg h1 h2]
  simp [List.append_assoc]

theorem stepBuildFile_apply {frs brs : List (Str × Str)} {content p B r : Str}
    (hf : findBetween beginBuildFile endBuildFile content = some (p, B, r))
    (h1 : splitFirst B content = some (p ++ beginBuildFile, endBuildFile ++ r))
    (h2 : splitFirst B (endBuildFile ++ r) = none) :
    stepBuildFile frs brs content =
      p ++ beginBuildFile ++ (rstrip B ++ str "\n" ++ newBuildEntries frs brs) ++
        endBuildFile ++ r := by
  unfold stepBuildFile
  rw [hf]
  exact replace_body (by decide) h1 h2

theorem stepFileRef_apply {frs : List (Str × Str)} {content p B r : Str}
    (hf : findBetween beginFileRef endFileRef content = some (p, B, r))
    (h1 : splitFirst B content = some (p ++ beginFileRef, endFileRef ++ r))
    (h2 : splitFirst B (endFileRef ++ r) = none) :
    stepFileRef frs content =
      p ++ beginFileRef ++ (rstrip B ++ str "\n" ++ newFileRefEntries frs) ++
        endFileRef ++ r := by
  unfold stepFileRef
  rw [hf]
  exact replace_body (by decide) h1 h2

theorem stepServices_apply {frs : List (Str × Str)} {content g u v : Str}
    (hm : matchBlock litServices innerChildren content = some g) (hg : g ≠ [])
    (h1 : splitFirst g content = some (u, v)) (h2 : splitFirst g v = none) :
    stepServices frs content = u ++ g ++ newServicesText frs ++ v := by
  unfold stepServices
  rw [hm]
  exact replace_block hg h1 h2

theorem stepViewControllers_apply {frs : List (Str × Str)} {content g u v : Str}
    (hm : matchBlock litViewControllers innerChildren content = some g) (hg : g ≠ [])
    (h1 : splitFirst g content = some (u, v)) (h2 : splitFirst g v = none) :
    stepViewControllers frs content = u ++ g ++ newVCText frs ++ v := by
  unfold stepViewControllers
  rw [hm]
  exact replace_block hg h1 h2

theorem stepSources_apply {brs : List (Str × Str)} {content g u v : Str}
    (hm : matchBlock litSources innerFiles content = some g) (hg : g ≠ [])
    (h1 : splitFirst g content = some (u, v)) (h2 : splitFirst g v = none) :
    stepSources brs content = u ++ g ++ newSourcesText brs ++ v := by
  unfold stepSources
  rw [hm]
  exact replace_block hg h1 h2

theorem stepBuildFile_skip {frs brs : List (Str × Str)} {content : Str}
    (h : findBetween beginBuildFile endBuildFile content = none) :
    stepBuildFile frs brs content = content := by
  unfold stepBuildFile
  rw [h]

theorem stepFileRef_skip {frs : List (Str × Str)} {content : Str}
    (h : findBetween beginFileRef endFileRef content = none) :
    stepFileRef frs content = content := by
  unfold stepFileRef
  rw [h]

theorem stepServices_skip {frs : List (Str × Str)} {content : Str}
    (h : matchBlock litServices innerChildren content = none) :
    stepServices frs content = content := by
  unfold stepServices
  rw [h]

theorem stepViewControllers_skip {frs : List (Str × Str)} {content : Str}
    (h : matchBlock litViewControllers innerChildren content = none) :
    stepViewControllers frs content = content := by
  unfold stepViewControllers
  rw [h]

theorem stepSources_skip {brs : List (Str × Str)} {content : Str}
    (h : matchBlock litSources innerFiles content = none) :
    stepSources brs content = content := by
  unfold stepSources
  rw [h]

/-! ## Pure localized insertion -/

/-- `InsertResult s blocks t` holds when `t` is obtained from `s` by inserting
the given blocks, one after another, each at some position of the current
text.  This is the formal reading of "the patch is a pure, localized
insertion: deleting exactly the inserted segments restores the input". -/
def InsertResult : Str → List Str → Str → Prop
  | s, [], t => t = s
  | s, blk :: rest, t => ∃ u v, s = u ++ v ∧ InsertResult (u ++ blk ++ v) rest t

theorem InsertResult_length : ∀ {blocks : List Str} {s t : Str},
    InsertResult s blocks t → t.length = s.length + (blocks.map List.length).sum := by
  intro blocks
  induction blocks with
  | nil => intro s t h; rw [h]; simp [InsertResult]
  | cons blk rest ih =>
    intro s t h
    obtain ⟨u, v, rfl, hr⟩ := h
    have := ih hr
    simp only [List.map_cons, List.sum_cons, List.length_append] at this ⊢
    omega

/-- Inserting a flattened list of blocks at one point realises those blocks
as successive insertions. -/
theorem InsertResult_flatten {t : Str} : ∀ {ls rest : List Str} {u v : Str},
    InsertResult (u ++ ls.flatten ++ v) rest t → InsertResult (u ++ v) (ls ++ rest) t := by
  intro ls
  induction ls with
  | nil => intro rest u v h; simpa using h
  | cons l ls ih =>
    intro rest u v h
    refine ⟨u, v, rfl, ih ?_⟩
    simpa [List.append_assoc] using h

/-- Variant taking the split of the current text as an equation, so the goal
text need not be rewritten. -/
theorem InsertResult_flatten_eq {s t : Str} {ls rest : List Str} {u v : Str}
    (hs : s = u ++ v) (h : InsertResult (u ++ ls.flatten ++ v) rest t) :
    InsertResult s (ls ++ rest) t := by
  rw [hs]
  exact InsertResult_flatten h

/-- All record lines one run inserts, in insertion order: five build-file
lines, five file-reference lines, three `Core/Services` membership lines, two
`ViewControllers` membership lines, five `Sources` membership lines. -/
def insertedLines (gen : Nat → Str) : List Str :=
  buildEntryLines (file_refs gen) (build_refs gen) ++
    (fileRefEntryLines (file_refs gen) ++
      (servicesLines (file_refs gen) ++
        (vcLines (file_refs gen) ++ sourcesLinesList (build_refs gen))))

/-- **C1 (amended).**  For a run in which every located section body ends in
exactly one trailing newline (no other trailing whitespace), and every
located body and matched group prefix occurs exactly once in the text it is
searched in, the patch is a pure localized insertion: the output is the input
with exactly the newly inserted record lines added, so removing exactly those
lines restores the input byte for byte; all manifest text outside the four
targeted sections is unchanged.  (Without the trailing-whitespace condition
this fails: `rstrip` erases pre-existing trailing whitespace of the section
body, see the counterexample.) -/
theorem patch_pure_insertion
    (gen : Nat → Str) (content p1 B1 r1 p2 B2 r2 g1 u1 v1 g2 u2 v2 g3 u3 v3 : Str)
    (hf1 : findBetween beginBuildFile endBuildFile content = some (p1, B1, r1))
    (hs1 : splitFirst B1 content = some (p1 ++ beginBuildFile, endBuildFile ++ r1))
    (hn1 : splitFirst B1 (endBuildFile ++ r1) = none)
    (hc1 : B1 = rstrip B1 ++ str "\n")
    (hf2 : findBetween beginFileRef endFileRef
        (stepBuildFile (file_refs gen) (build_refs gen) content) = some (p2, B2, r2))
    (hs2 : splitFirst B2 (stepBuildFile (file_refs gen) (build_refs gen) content) =
        some (p2 ++ beginFileRef, endFileRef ++ r2))
    (hn2 : splitFirst B2 (endFileRef ++ r2) = none)
    (hc2 : B2 = rstrip B2 ++ str "\n")
    (hm3 : matchBlock litServices innerChildren
        (stepFileRef (file_refs gen) (stepBuildFile (file_refs gen) (build_refs gen) content)) =
        some g1)
    (hg3 : g1 ≠ [])
    (hs3 : splitFirst g1
        (stepFileRef (file_refs gen) (stepBuildFile (file_refs gen) (build_refs gen) content)) =
        some (u1, v1))
    (hn3 : splitFirst g1 v1 = none)
    (hm4 : matchBlock litViewControllers innerChildren
        (stepServices (file_refs gen)
          (stepFileRef (file_refs gen)
            (stepBuildFile (file_refs gen) (build_refs gen) content))) = some g2)
    (hg4 : g2 ≠ [])
    (hs4 : splitFirst g2
        (stepServices (file_refs gen)
          (stepFileRef (file_refs gen)
            (stepBuildFile (file_refs gen) (build_refs gen) content))) = some (u2, v2))
    (hn4 : splitFirst g2 v2 = none)
    (hm5 : matchBlock litSources innerFiles
        (stepViewControllers (file_refs gen)
          (stepServices (file_refs gen)
            (stepFileRef (file_refs gen)
              (stepBuildFile (file_refs gen) (build_refs gen) content)))) = some g3)
    (hg5 : g3 ≠ [])
    (hs5 : splitFirst g3
        (stepViewControllers (file_refs gen)
          (stepServices (file_refs gen)
            (stepFileRef (file_refs gen)
              (stepBuildFile (file_refs gen) (build_refs gen) content)))) = some (u3, v3))
    (hn5 : splitFirst g3 v3 = none) :
    InsertResult content (insertedLines gen) (add_files_to_xcode_project gen content) := by
  have e1 : stepBuildFile (file_refs gen) (build_refs gen) content =
      (((p1 ++ beginBuildFile) ++ B1) ++
        (buildEntryLines (file_refs gen) (build_refs gen)).flatten) ++
        (endBuildFile ++ r1) := by
    rw [stepBuildFile_apply hf1 hs1 hn1, ← hc1]
    simp [newBuildEntries, List.append_assoc]
  have e2 : stepFileRef (file_refs gen) (stepBuildFile (file_refs gen) (build_refs gen) content) =
      (((p2 ++ beginFileRef) ++ B2) ++ (fileRefEntryLines (file_refs gen)).flatten) ++
        (endFileRef ++ r2) := by
    rw [stepFileRef_apply hf2 hs2 hn2, ← hc2]
    simp [newFileRefEntries, List.append_assoc]
  have e3 : stepServices (file_refs gen)
      (stepFileRef (file_refs gen) (stepBuildFile (file_refs gen) (build_refs gen) content)) =
      ((u1 ++ g1) ++ (servicesLines (file_refs gen)).flatten) ++ v1 := by
    rw [stepServices_apply hm3 hg3 hs3 hn3]
    simp [newServicesText, List.append_assoc]
  have e4 : stepViewControllers (file_refs gen)
      (stepServices (file_refs gen)
        (stepFileRef (file_refs gen)
          (stepBuildFile (file_refs gen) (build_refs gen) content))) =
      ((u2 ++ g2) ++ (vcLines (file_refs gen)).flatten) ++ v2 := by
    rw [stepViewControllers_apply hm4 hg4 hs4 hn4]
    simp [newVCText, List.append_assoc]
  have e5 : add_files_to_xcode_project gen content =
      ((u3 ++ g3) ++ (sourcesLinesList (build_refs gen)).flatten) ++ v3 := by
    rw [add_files_to_xcode_project, stepSources_apply hm5 hg5 hs5 hn5]
    simp [newSourcesText, List.append_assoc]
  rw [insertedLines]
  refine InsertResult_flatten_eq (splitFirst_sound hs1) ?_
  rw [← e1]
  refine InsertResult_flatten_eq (splitFirst_sound hs2) ?_
  rw [← e2]
  refine InsertResult_flatten_eq (splitFirst_sound hs3) ?_
  rw [← e3]
  refine InsertResult_flatten_eq (splitFirst_sound hs4) ?_
  rw [← e4, ← List.append_nil (sourcesLinesList (build_refs gen))]
  refine InsertResult_flatten_eq (splitFirst_sound hs5) ?_
  exact e5

/-! ## A concrete well-formed manifest used to instantiate the theorems -/

set_option maxRecDepth 1000000

def w_gen : Nat → Str := fun k => str ("w" ++ toString k)

def w_p1 : Str := str "// pbxproj\n"

def w_B1 : Str := str "\n\t\tA00000000000000000000001 /* Old.swift in Sources */ = \x7bisa = PBXBuildFile; fileRef = A00000000000000000000000 /* Old.swift */; \x7d;\n"

def w_mid1 : Str := str "\n\n"

def w_B2 : Str := str "\n\t\tA00000000000000000000000 /* Old.swift */ = \x7bisa = PBXFileReference; path = Old.swift; \x7d;\n"

def w_ra : Str := str "\n\n\t\tG1 "

def w_x1 : Str := str "\n\t\t\tisa = PBXGroup;\n\t\t\t"

def w_y1 : Str := str "\n\t\t\t\tA00000000000000000000000 /* Old.swift */,\n\t\t\t"

def w_rc : Str := str ");\n\t\t\x7d;\n\t\tG2 "

def w_x2 : Str := str "\n\t\t\tisa = PBXGroup;\n\t\t\t"

def w_y2 : Str := str "\n\t\t\t"

def w_re : Str := str ");\n\t\t\x7d;\n\t\tP1 "

def w_x3 : Str := str "\n\t\t\tisa = PBXSourcesBuildPhase;\n\t\t\t"

def w_y3 : Str := str "\n\t\t\t\tA00000000000000000000001 /* Old.swift in Sources */,\n\t\t\t"

def w_rf : Str := str ");\n\t\t\x7d;\n\x7d\n"

def w_g1 : Str := litServices ++ w_x1 ++ innerChildren ++ w_y1

def w_g2 : Str := litViewControllers ++ w_x2 ++ innerChildren ++ w_y2

def w_g3 : Str := litSources ++ w_x3 ++ innerFiles ++ w_y3

def w_rest : Str := w_ra ++ w_g1 ++ w_rc ++ w_g2 ++ w_re ++ w_g3 ++ w_rf

def w_r1 : Str := w_mid1 ++ beginFileRef ++ w_B2 ++ endFileRef ++ w_rest

def w_manifest : Str := w_p1 ++ beginBuildFile ++ w_B1 ++ endBuildFile ++ w_r1

def w_E1 : Str := newBuildEntries (file_refs w_gen) (build_refs w_gen)

def w_E2 : Str := newFileRefEntries (file_refs w_gen)

def w_S1 : Str := newServicesText (file_refs w_gen)

def w_S2 : Str := newVCText (file_refs w_gen)

def w_p2 : Str := w_p1 ++ beginBuildFile ++ w_B1 ++ w_E1 ++ endBuildFile ++ w_mid1

def w_u1 : Str := w_p2 ++ beginFileRef ++ w_B2 ++ w_E2 ++ endFileRef ++ w_ra

def w_v1 : Str := w_rc ++ w_g2 ++ w_re ++ w_g3 ++ w_rf

def w_u2 : Str := w_u1 ++ w_g1 ++ w_S1 ++ w_rc

def w_v2 : Str := w_re ++ w_g3 ++ w_rf

def w_u3 : Str := w_u2 ++ w_g2 ++ w_S2 ++ w_re

def w_v3 : Str := w_rf

abbrev w_c1 : Str := stepBuildFile (file_refs w_gen) (build_refs w_gen) w_manifest

abbrev w_c2 : Str := stepFileRef (file_refs w_gen) w_c1

abbrev w_c3 : Str := stepServices (file_refs w_gen) w_c2

abbrev w_c4 : Str := stepViewControllers (file_refs w_gen) w_c3

theorem w_hf1 : findBetween beginBuildFile endBuildFile w_manifest = some (w_p1, w_B1, w_r1) :=
  eq_of_beq (by decide)

theorem w_hs1 : splitFirst w_B1 w_manifest = some (w_p1 ++ beginBuildFile, endBuildFile ++ w_r1) :=
  eq_of_beq (by decide)

theorem w_hn1 : splitFirst w_B1 (endBuildFile ++ w_r1) = none :=
  eq_of_beq (by decide)

theorem w_hc1 : w_B1 = rstrip w_B1 ++ str "\n" :=
  eq_of_beq (by decide)

theorem w_hf2 : findBetween beginFileRef endFileRef w_c1 = some (w_p2, w_B2, w_rest) :=
  eq_of_beq (by decide)

theorem w_hs2 : splitFirst w_B2 w_c1 = some (w_p2 ++ beginFileRef, endFileRef ++ w_rest) :=
  eq_of_beq (by decide)

theorem w_hn2 : splitFirst w_B2 (endFileRef ++ w_rest) = none :=
  eq_of_beq (by decide)

theorem w_hc2 : w_B2 = rstrip w_B2 ++ str "\n" :=
  eq_of_beq (by decide)

theorem w_hm3 : matchBlock litServices innerChildren w_c2 = some w_g1 :=
  eq_of_beq (by decide)

theorem w_hg3 : w_g1 ≠ [] := by decide

theorem w_hs3 : splitFirst w_g1 w_c2 = some (w_u1, w_v1) :=
  eq_of_beq (by decide)

theorem w_hn3 : splitFirst w_g1 w_v1 = none :=
  eq_of_beq (by decide)

theorem w_hm4 : matchBlock litViewControllers innerChildren w_c3 = some w_g2 :=
  eq_of_beq (by decide)

theorem w_hg4 : w_g2 ≠ [] := by decide

theorem w_hs4 : splitFirst w_g2 w_c3 = some (w_u2, w_v2) :=
  eq_of_beq (by decide)

theorem w_hn4 : splitFirst w_g2 w_v2 = none :=
  eq_of_beq (by decide)

theorem w_hm5 : matchBlock litSources innerFiles w_c4 = some w_g3 :=
  eq_of_beq (by decide)

theorem w_hg5 : w_g3 ≠ [] := by decide

theorem w_hs5 : splitFirst w_g3 w_c4 = some (w_u3, w_v3) :=
  eq_of_beq (by decide)

theorem w_hn5 : splitFirst w_g3 w_v3 = none :=
  eq_of_beq (by decide)

/-- **C1 (amended), witness.**  The hypotheses of `patch_pure_insertion` hold
at the concrete manifest `w_manifest`, and the patched output is the input
with exactly the inserted record lines added. -/
theorem patch_pure_insertion_w :
    InsertResult w_manifest (insertedLines w_gen)
      (add_files_to_xcode_project w_gen w_manifest) :=
  patch_pure_insertion w_gen w_manifest w_p1 w_B1 w_r1 w_p2 w_B2 w_rest w_g1 w_u1 w_v1
    w_g2 w_u2 w_v2 w_g3 w_u3 w_v3 w_hf1 w_hs1 w_hn1 w_hc1 w_hf2 w_hs2 w_hn2 w_hc2
    w_hm3 w_hg3 w_hs3 w_hn3 w_hm4 w_hg4 w_hs4 w_hn4 w_hm5 w_hg5 w_hs5 w_hn5

/-! ## C1: the counterexample (extra trailing whitespace is destroyed) -/

theorem ne_of_beq_eq_false {a b : Str} (h : (a == b) = false) : a ≠ b := by
  intro he
  subst he
  simp at h

/-- Tail-recursive length comparison, so that concrete evaluation in the
kernel is iterative. -/
def sameLen : Str → Str → Bool
  | [], [] => true
  | _ :: x, _ :: y => sameLen x y
  | _, _ => false

theorem sameLen_of_length_eq : ∀ {a b : Str}, a.length = b.length → sameLen a b = true
  | [], [], _ => rfl
  | [], _ :: _, h => by simp at h
  | _ :: _, [], h => by simp at h
  | _ :: x, _ :: y, h => by
    simp only [List.length_cons, Nat.add_right_cancel_iff] at h
    simpa [sameLen] using sameLen_of_length_eq h

/-- A manifest identical to `w_manifest` except that the `PBXBuildFile`
section body carries one extra (empty) trailing line. -/
def cx1_manifest : Str :=
  w_p1 ++ beginBuildFile ++ (w_B1 ++ str "\n") ++ endBuildFile ++ w_r1

/-- **C1 (counterexample).**  On a manifest whose build-file section body ends
with an extra blank line, the run (all five patterns match, the run succeeds
and prints its summary) is *not* a pure insertion: `rstrip` silently deletes
the blank line, so removing the newly inserted record lines from the output
does not restore the input. -/
theorem patch_pure_insertion_cx :
    ¬ InsertResult cx1_manifest (insertedLines w_gen)
        (add_files_to_xcode_project w_gen cx1_manifest) := by
  intro h
  have hl := InsertResult_length h
  have hlen : (cx1_manifest ++ (insertedLines w_gen).flatten).length =
      (add_files_to_xcode_project w_gen cx1_manifest).length := by
    rw [List.length_append, hl, List.length_flatten]
  have hfalse : sameLen (cx1_manifest ++ (insertedLines w_gen).flatten)
      (add_files_to_xcode_project w_gen cx1_manifest) = false := by decide
  rw [sameLen_of_length_eq hlen] at hfalse
  exact Bool.noConfusion hfalse

/-! ## C8: insertion position and preservation of existing section lines -/

/-- **C8 (amended).**  Under the same conditions as `patch_pure_insertion`
(each record-section body ends in exactly one trailing newline and each
located body or group prefix occurs exactly once), every targeted section is
rewritten to its existing body followed by the new record lines, placed
before the section's end marker (the closing parenthesis for the two
membership lists): the order and content of all existing lines is preserved
and the new lines appear in `files_to_add` (InsertionRequest) order.  Without
the trailing-newline condition the build-file and file-reference rewrites
destroy trailing whitespace-only lines, see the counterexample. -/
theorem sections_append_at_end
    (gen : Nat → Str) (content p1 B1 r1 p2 B2 r2 g1 u1 v1 g2 u2 v2 g3 u3 v3 : Str)
    (hf1 : findBetween beginBuildFile endBuildFile content = some (p1, B1, r1))
    (hs1 : splitFirst B1 content = some (p1 ++ beginBuildFile, endBuildFile ++ r1))
    (hn1 : splitFirst B1 (endBuildFile ++ r1) = none)
    (hc1 : B1 = rstrip B1 ++ str "\n")
    (hf2 : findBetween beginFileRef endFileRef
        (stepBuildFile (file_refs gen) (build_refs gen) content) = some (p2, B2, r2))
    (hs2 : splitFirst B2 (stepBuildFile (file_refs gen) (build_refs gen) content) =
        some (p2 ++ beginFileRef, endFileRef ++ r2))
    (hn2 : splitFirst B2 (endFileRef ++ r2) = none)
    (hc2 : B2 = rstrip B2 ++ str "\n")
    (hm3 : matchBlock litServices innerChildren
        (stepFileRef (file_refs gen) (stepBuildFile (file_refs gen) (build_refs gen) content)) =
        some g1)
    (hg3 : g1 ≠ [])
    (hs3 : splitFirst g1
        (stepFileRef (file_refs gen) (stepBuildFile (file_refs gen) (build_refs gen) content)) =
        some (u1, v1))
    (hn3 : splitFirst g1 v1 = none)
    (hm4 : matchBlock litViewControllers innerChildren
        (stepServices (file_refs gen)
          (stepFileRef (file_refs gen)
            (stepBuildFile (file_refs gen) (build_refs gen) content))) = some g2)
    (hg4 : g2 ≠ [])
    (hs4 : splitFirst g2
        (stepServices (file_refs gen)
          (stepFileRef (file_refs gen)
            (stepBuildFile (file_refs gen) (build_refs gen) content))) = some (u2, v2))
    (hn4 : splitFirst g2 v2 = none)
    (hm5 : matchBlock litSources innerFiles
        (stepViewControllers (file_refs gen)
          (stepServices (file_refs gen)
            (stepFileRef (file_refs gen)
              (stepBuildFile (file_refs gen) (build_refs gen) content)))) = some g3)
    (hg5 : g3 ≠ [])
    (hs5 : splitFirst g3
        (stepViewControllers (file_refs gen)
          (stepServices (file_refs gen)
            (stepFileRef (file_refs gen)
              (stepBuildFile (file_refs gen) (build_refs gen) content)))) = some (u3, v3))
    (hn5 : splitFirst g3 v3 = none) :
    stepBuildFile (file_refs gen) (build_refs gen) content =
        p1 ++ beginBuildFile ++
          (B1 ++ newBuildEntries (file_refs gen) (build_refs gen)) ++ endBuildFile ++ r1 ∧
    stepFileRef (file_refs gen) (stepBuildFile (file_refs gen) (build_refs gen) content) =
        p2 ++ beginFileRef ++ (B2 ++ newFileRefEntries (file_refs gen)) ++ endFileRef ++ r2 ∧
    stepServices (file_refs gen)
        (stepFileRef (file_refs gen) (stepBuildFile (file_refs gen) (build_refs gen) content)) =
        u1 ++ (g1 ++ newServicesText (file_refs gen)) ++ v1 ∧
    stepViewControllers (file_refs gen)
        (stepServices (file_refs gen)
          (stepFileRef (file_refs gen)
            (stepBuildFile (file_refs gen) (build_refs gen) content))) =
        u2 ++ (g2 ++ newVCText (file_refs gen)) ++ v2 ∧
    add_files_to_xcode_project gen content =
        u3 ++ (g3 ++ newSourcesText (build_refs gen)) ++ v3 := by
  refine ⟨?_, ?_, ?_, ?_, ?_⟩
  · rw [stepBuildFile_apply hf1 hs1 hn1, ← hc1]
    try simp [List.append_assoc]
  · rw [stepFileRef_apply hf2 hs2 hn2, ← hc2]
    try simp [List.append_assoc]
  · rw [stepServices_apply hm3 hg3 hs3 hn3]
    try simp [List.append_assoc]
  · rw [stepViewControllers_apply hm4 hg4 hs4 hn4]
    try simp [List.append_assoc]
  · rw [add_files_to_xcode_project, stepSources_apply hm5 hg5 hs5 hn5]
    try simp [List.append_assoc]

/-- **C8 (amended), witness.** -/
theorem sections_append_at_end_w :
    stepBuildFile (file_refs w_gen) (build_refs w_gen) w_manifest =
        w_p1 ++ beginBuildFile ++
          (w_B1 ++ newBuildEntries (file_refs w_gen) (build_refs w_gen)) ++ endBuildFile ++ w_r1 ∧
    stepFileRef (file_refs w_gen) (stepBuildFile (file_refs w_gen) (build_refs w_gen) w_manifest) =
        w_p2 ++ beginFileRef ++ (w_B2 ++ newFileRefEntries (file_refs w_gen)) ++ endFileRef ++ w_rest ∧
    stepServices (file_refs w_gen)
        (stepFileRef (file_refs w_gen)
          (stepBuildFile (file_refs w_gen) (build_refs w_gen) w_manifest)) =
        w_u1 ++ (w_g1 ++ newServicesText (file_refs w_gen)) ++ w_v1 ∧
    stepViewControllers (file_refs w_gen)
        (stepServices (file_refs w_gen)
          (stepFileRef (file_refs w_gen)
            (stepBuildFile (file_refs w_gen) (build_refs w_gen) w_manifest))) =
        w_u2 ++ (w_g2 ++ newVCText (file_refs w_gen)) ++ w_v2 ∧
    add_files_to_xcode_project w_gen w_manifest =
        w_u3 ++ (w_g3 ++ newSourcesText (build_refs w_gen)) ++ w_v3 :=
  sections_append_at_end w_gen w_manifest w_p1 w_B1 w_r1 w_p2 w_B2 w_rest w_g1 w_u1 w_v1
    w_g2 w_u2 w_v2 w_g3 w_u3 w_v3 w_hf1 w_hs1 w_hn1 w_hc1 w_hf2 w_hs2 w_hn2 w_hc2
    w_hm3 w_hg3 w_hs3 w_hn3 w_hm4 w_hg4 w_hs4 w_hn4 w_hm5 w_hg5 w_hs5 w_hn5

/-- A manifest identical to `w_manifest` except that the `PBXBuildFile`
section body ends with an additional whitespace-only line. -/
def cx8_manifest : Str :=
  w_p1 ++ beginBuildFile ++ (w_B1 ++ str "   \n") ++ endBuildFile ++ w_r1

/-- **C8 (counterexample).**  On a manifest whose build-file section body ends
with a whitespace-only line, the patched output (first conjunct: what the code
actually produces, with the section body `rstrip`ped) differs from the output
the claim demands, in which the new lines are appended after the unmodified
existing body: the whitespace-only existing line is destroyed. -/
theorem sections_append_at_end_cx :
    add_files_to_xcode_project w_gen cx8_manifest =
      w_p1 ++ beginBuildFile ++
        (rstrip (w_B1 ++ str "   \n") ++ str "\n" ++ w_E1) ++ endBuildFile ++ w_mid1 ++
        beginFileRef ++ (w_B2 ++ w_E2) ++ endFileRef ++ w_ra ++ (w_g1 ++ w_S1) ++ w_rc ++
        (w_g2 ++ w_S2) ++ w_re ++ (w_g3 ++ newSourcesText (build_refs w_gen)) ++ w_rf ∧
    add_files_to_xcode_project w_gen cx8_manifest ≠
      w_p1 ++ beginBuildFile ++
        ((w_B1 ++ str "   \n") ++ w_E1) ++ endBuildFile ++ w_mid1 ++
        beginFileRef ++ (w_B2 ++ w_E2) ++ endFileRef ++ w_ra ++ (w_g1 ++ w_S1) ++ w_rc ++
        (w_g2 ++ w_S2) ++ w_re ++ (w_g3 ++ newSourcesText (build_refs w_gen)) ++ w_rf :=
  ⟨eq_of_beq (by decide), ne_of_beq_eq_false (by decide)⟩

/-! ## Record extraction: the identifiers heading the record lines of a
section body (one line per record; a record line is indented by tabs and
starts with its 24-character uppercase-hexadecimal identifier) -/

def isHexUpper (c : Char) : Bool := (str "0123456789ABCDEF").contains c

/-- The well-formedness of a minted identifier: 24 characters, all uppercase
hexadecimal. -/
abbrev idFormat (id : Str) : Prop := id.length = 24 ∧ ∀ c ∈ id, isHexUpper c = true

/-- The identifier defined by one record line: strip the leading tabs, take
the maximal run of uppercase-hexadecimal characters, and accept it when it
has the record-identifier length. -/
def idOfLine (l : Str) : Option Str :=
  let t := l.dropWhile fun c => c == '\t'
  let id := t.takeWhile isHexUpper
  if id.length = 24 then some id else none

/-- Fold a per-line extractor over the lines of a string (lines separated by
newline characters; `acc` holds the current line, reversed). -/
def linesFoldGo (f : Str → Option Str) : Str → Str → List Str
  | acc, [] => (f acc.reverse).toList
  | acc, c :: t =>
    if c = '\n' then (f acc.reverse).toList ++ linesFoldGo f [] t
    else linesFoldGo f (c :: acc) t

/-- The identifiers of all record lines of a string. -/
def recordsOf (s : Str) : List Str := linesFoldGo idOfLine [] s

abbrev noNl (s : Str) : Prop := ∀ c ∈ s, (c == '\n') = false

theorem noNl_append {x y : Str} (hx : noNl x) (hy : noNl y) : noNl (x ++ y) := by
  intro c hc
  rcases List.mem_append.mp hc with h | h
  · exact hx c h
  · exact hy c h

theorem isHexUpper_ne_nl {c : Char} (h : isHexUpper c = true) : (c == '\n') = false := by
  cases hb : (c == '\n') with
  | false => rfl
  | true =>
    have : c = '\n' := eq_of_beq hb
    subst this
    exact absurd h (by decide)

theorem noNl_of_idFormat {id : Str} (h : idFormat id) : noNl id :=
  fun c hc => isHexUpper_ne_nl (h.2 c hc)

theorem linesFoldGo_line {f : Str → Option Str} : ∀ {l : Str}, noNl l →
    ∀ (rest acc : Str),
      linesFoldGo f acc (l ++ '\n' :: rest) =
        (f (acc.reverse ++ l)).toList ++ linesFoldGo f [] rest := by
  intro l
  induction l with
  | nil =>
    intro _ rest acc
    simp [linesFoldGo]
  | cons c l ih =>
    intro hnl rest acc
    have hc : (c == '\n') = false := hnl c (by simp)
    have hcne : ¬ c = '\n' := by
      intro he
      subst he
      simp at hc
    have hl : noNl l := fun a ha => hnl a (by simp [ha])
    rw [List.cons_append]
    have hstep : linesFoldGo f acc (c :: (l ++ '\n' :: rest)) =
        linesFoldGo f (c :: acc) (l ++ '\n' :: rest) := by
      simp [linesFoldGo, hcne]
    rw [hstep, ih hl rest (c :: acc)]
    simp

/-- A string assembled from newline-terminated lines. -/
inductive NlTerminated : Str → Prop
  | nil : NlTerminated []
  | line (l rest : Str) : noNl l → NlTerminated rest → NlTerminated (l ++ '\n' :: rest)

theorem first_nl_decomp : ∀ (x : Str), (∃ z, x = z ++ ['\n']) →
    ∃ l x2, x = l ++ '\n' :: x2 ∧ noNl l ∧ (x2 = [] ∨ ∃ z2, x2 = z2 ++ ['\n']) := by
  intro x
  induction x with
  | nil =>
    intro ⟨z, hz⟩
    exact absurd hz.symm (by simp)
  | cons c t ih =>
    intro ⟨z, hz⟩
    by_cases hc : c = '\n'
    · subst hc
      refine ⟨[], t, by simp, by intro a ha; simp at ha, ?_⟩
      cases z with
      | nil =>
        left
        simpa using hz
      | cons z0 z1 =>
        right
        obtain ⟨h1, h2⟩ : '\n' = z0 ∧ t = z1 ++ ['\n'] := by simpa using hz
        exact ⟨z1, h2⟩
    · cases z with
      | nil =>
        exfalso
        apply hc
        obtain ⟨h1, h2⟩ : c = '\n' ∧ t = [] := by simpa using hz
        exact h1
      | cons z0 z1 =>
        obtain ⟨h1, hz1⟩ : c = z0 ∧ t = z1 ++ ['\n'] := by simpa using hz
        obtain ⟨l, x2, he, hnl, hrest⟩ := ih ⟨z1, hz1⟩
        refine ⟨c :: l, x2, by simp [he], ?_, hrest⟩
        intro a ha
        rcases List.mem_cons.mp ha with rfl | h
        · cases hb : (a == '\n') with
          | false => rfl
          | true => exact absurd (eq_of_beq hb) hc
        · exact hnl a h

theorem nlTerminated_of_trailing_aux : ∀ (n : Nat) (x : Str), x.length ≤ n →
    (∃ z, x = z ++ ['\n']) → NlTerminated x := by
  intro n
  induction n with
  | zero =>
    intro x hx ⟨z, hz⟩
    subst hz
    simp at hx
  | succ n ih =>
    intro x hx hz
    obtain ⟨l, x2, he, hnl, hrest⟩ := first_nl_decomp x hz
    subst he
    rcases hrest with rfl | h2
    · exact NlTerminated.line l [] hnl NlTerminated.nil
    · refine NlTerminated.line l x2 hnl (ih x2 ?_ h2)
      have : (l ++ '\n' :: x2).length = l.length + 1 + x2.length := by
        simp [List.length_append]
        omega
      omega

theorem nlTerminated_of_trailing {x : Str} (h : ∃ z, x = z ++ ['\n']) : NlTerminated x :=
  nlTerminated_of_trailing_aux x.length x le_rfl h

theorem recordsOf_append {x : Str} (hx : NlTerminated x) (y : Str) :
    recordsOf (x ++ y) = recordsOf x ++ recordsOf y := by
  induction hx with
  | nil =>
    have h0 : recordsOf [] = [] := rfl
    simp [h0]
  | line l rest hnl _ ih =>
    show recordsOf ((l ++ '\n' :: rest) ++ y) = _
    have h1 : (l ++ '\n' :: rest) ++ y = l ++ '\n' :: (rest ++ y) := by simp
    rw [h1]
    unfold recordsOf
    rw [linesFoldGo_line hnl (rest ++ y) [], linesFoldGo_line hnl rest []]
    simp only [List.reverse_nil, List.nil_append, List.append_assoc]
    rw [show linesFoldGo idOfLine [] (rest ++ y) = recordsOf (rest ++ y) from rfl, ih]
    rfl

theorem recordsOf_entry {body rest : Str} (h : noNl body) :
    recordsOf ((body ++ str "\n") ++ rest) = (idOfLine body).toList ++ recordsOf rest := by
  have h1 : (body ++ str "\n") ++ rest = body ++ '\n' :: rest := by simp [str]
  rw [h1]
  unfold recordsOf
  rw [linesFoldGo_line h rest []]
  simp

theorem takeWhile_append_stop {p : Char → Bool} : ∀ {x : Str} {c : Char} {y : Str},
    (∀ a ∈ x, p a = true) → p c = false → (x ++ c :: y).takeWhile p = x := by
  intro x
  induction x with
  | nil =>
    intro c y _ hc
    simp [List.takeWhile_cons, hc]
  | cons a x ih =>
    intro c y hx hc
    have ha : p a = true := hx a (by simp)
    show List.takeWhile p (a :: (x ++ c :: y)) = a :: x
    rw [List.takeWhile_cons, if_pos ha, ih (fun b hb => hx b (by simp [hb])) hc]

theorem idOfLine_eq (l : Str) :
    idOfLine l =
      if ((l.dropWhile fun c => c == '\t').takeWhile isHexUpper).length = 24
      then some ((l.dropWhile fun c => c == '\t').takeWhile isHexUpper) else none := rfl

theorem idOfLine_record {id rest : Str} (h : idFormat id) :
    idOfLine ('\t' :: '\t' :: (id ++ ' ' :: rest)) = some id := by
  obtain ⟨hlen, hhex⟩ := h
  obtain ⟨c, id', rfl⟩ : ∃ c id', id = c :: id' := by
    cases id with
    | nil => simp at hlen
    | cons c id' => exact ⟨c, id', rfl⟩
  have hchex : isHexUpper c = true := hhex c (by simp)
  have hctab : (c == '\t') = false := by
    cases hb : (c == '\t') with
    | false => rfl
    | true =>
      have he : c = '\t' := eq_of_beq hb
      rw [he] at hchex
      exact absurd hchex (by decide)
  have hid' : ∀ a ∈ id', isHexUpper a = true := fun a ha => hhex a (by simp [ha])
  simp only [List.cons_append]
  rw [idOfLine_eq]
  rw [show (('\t' :: '\t' :: c :: (id' ++ ' ' :: rest)).dropWhile fun ch => ch == '\t') =
      c :: (id' ++ ' ' :: rest) from by simp [List.dropWhile_cons, hctab]]
  rw [show ((c :: (id' ++ ' ' :: rest)).takeWhile isHexUpper) = c :: id' from by
    rw [List.takeWhile_cons, if_pos hchex, takeWhile_append_stop hid' (by decide)]]
  simp [hlen]

theorem idOfLine_buildFileRecordBody {bid fid name : Str} (hb : idFormat bid) :
    idOfLine (buildFileRecordBody bid fid name) = some bid := by
  have hshape : buildFileRecordBody bid fid name =
      '\t' :: '\t' :: (bid ++ ' ' :: (str "/* " ++ name ++
        str " in Sources */ = \x7bisa = PBXBuildFile; fileRef = " ++ fid ++
        str " /* " ++ name ++ str " */; \x7d;")) := by
    unfold buildFileRecordBody
    rw [show str "\t\t" = ['\t', '\t'] from rfl,
      show str " /* " = ' ' :: str "/* " from rfl]
    simp [List.append_assoc]
  rw [hshape]
  exact idOfLine_record hb

theorem idOfLine_fileRefRecordBody {fid name : Str} (hf : idFormat fid) :
    idOfLine (fileRefRecordBody fid name) = some fid := by
  have hshape : fileRefRecordBody fid name =
      '\t' :: '\t' :: (fid ++ ' ' :: (str "/* " ++ name ++
        str " */ = \x7bisa = PBXFileReference; lastKnownFileType = sourcecode.swift; path = " ++
        name ++ str "; sourceTree = \"<group>\"; \x7d;")) := by
    unfold fileRefRecordBody
    rw [show str "\t\t" = ['\t', '\t'] from rfl,
      show str " /* " = ' ' :: str "/* " from rfl]
    simp [List.append_assoc]
  rw [hshape]
  exact idOfLine_record hf

theorem noNl_buildFileRecordBody {bid fid name : Str}
    (hb : idFormat bid) (hf : idFormat fid) (hn : noNl name) :
    noNl (buildFileRecordBody bid fid name) := by
  intro c hc
  simp only [buildFileRecordBody, List.mem_append] at hc
  rcases hc with ((((((((h | h) | h) | h) | h) | h) | h) | h) | h)
  · exact (by decide : noNl (str "\t\t")) c h
  · exact noNl_of_idFormat hb c h
  · exact (by decide : noNl (str " /* ")) c h
  · exact hn c h
  · exact (by decide :
      noNl (str " in Sources */ = \x7bisa = PBXBuildFile; fileRef = ")) c h
  · exact noNl_of_idFormat hf c h
  · exact (by decide : noNl (str " /* ")) c h
  · exact hn c h
  · exact (by decide : noNl (str " */; \x7d;")) c h

theorem noNl_fileRefRecordBody {fid name : Str} (hf : idFormat fid) (hn : noNl name) :
    noNl (fileRefRecordBody fid name) := by
  intro c hc
  simp only [fileRefRecordBody, List.mem_append] at hc
  rcases hc with ((((((h | h) | h) | h) | h) | h) | h)
  · exact (by decide : noNl (str "\t\t")) c h
  · exact noNl_of_idFormat hf c h
  · exact (by decide : noNl (str " /* ")) c h
  · exact hn c h
  · exact (by decide : noNl (str " */ = \x7bisa = PBXFileReference; lastKnownFileType = sourcecode.swift; path = ")) c h
  · exact hn c h
  · exact (by decide : noNl (str "; sourceTree = \"<group>\"; \x7d;")) c h

theorem recordsOf_buildFileLine_cons {bid fid name rest : Str}
    (hb : idFormat bid) (hf : idFormat fid) (hn : noNl name) :
    recordsOf (buildFileLine bid fid name ++ rest) = bid :: recordsOf rest := by
  unfold buildFileLine
  rw [recordsOf_entry (noNl_buildFileRecordBody hb hf hn),
    idOfLine_buildFileRecordBody hb]
  rfl

theorem recordsOf_fileRefLine_cons {fid name rest : Str}
    (hf : idFormat fid) (hn : noNl name) :
    recordsOf (fileRefLine fid name ++ rest) = fid :: recordsOf rest := by
  unfold fileRefLine
  rw [recordsOf_entry (noNl_fileRefRecordBody hf hn), idOfLine_fileRefRecordBody hf]
  rfl

theorem recordsOf_newBuildEntries (gen : Nat → Str)
    (hfmt : ∀ k, k < 10 → idFormat (mkId (gen k))) :
    recordsOf (newBuildEntries (file_refs gen) (build_refs gen)) =
      [mkId (gen 1), mkId (gen 3), mkId (gen 5), mkId (gen 7), mkId (gen 9)] := by
  have hE : newBuildEntries (file_refs gen) (build_refs gen) =
      buildFileLine (mkId (gen 1)) (mkId (gen 0)) nameAuto ++
        (buildFileLine (mkId (gen 3)) (mkId (gen 2)) nameUrinary ++
          (buildFileLine (mkId (gen 5)) (mkId (gen 4)) nameCoreML ++
            (buildFileLine (mkId (gen 7)) (mkId (gen 6)) nameModern ++
              (buildFileLine (mkId (gen 9)) (mkId (gen 8)) nameHeader ++ [])))) := rfl
  rw [hE,
    recordsOf_buildFileLine_cons (hfmt 1 (by omega)) (hfmt 0 (by omega)) (by decide),
    recordsOf_buildFileLine_cons (hfmt 3 (by omega)) (hfmt 2 (by omega)) (by decide),
    recordsOf_buildFileLine_cons (hfmt 5 (by omega)) (hfmt 4 (by omega)) (by decide),
    recordsOf_buildFileLine_cons (hfmt 7 (by omega)) (hfmt 6 (by omega)) (by decide),
    recordsOf_buildFileLine_cons (hfmt 9 (by omega)) (hfmt 8 (by omega)) (by decide)]
  rfl

theorem recordsOf_newFileRefEntries (gen : Nat → Str)
    (hfmt : ∀ k, k < 10 → idFormat (mkId (gen k))) :
    recordsOf (newFileRefEntries (file_refs gen)) =
      [mkId (gen 0), mkId (gen 2), mkId (gen 4), mkId (gen 6), mkId (gen 8)] := by
  have hE : newFileRefEntries (file_refs gen) =
      fileRefLine (mkId (gen 0)) nameAuto ++
        (fileRefLine (mkId (gen 2)) nameUrinary ++
          (fileRefLine (mkId (gen 4)) nameCoreML ++
            (fileRefLine (mkId (gen 6)) nameModern ++
              (fileRefLine (mkId (gen 8)) nameHeader ++ [])))) := rfl
  rw [hE,
    recordsOf_fileRefLine_cons (hfmt 0 (by omega)) (by decide),
    recordsOf_fileRefLine_cons (hfmt 2 (by omega)) (by decide),
    recordsOf_fileRefLine_cons (hfmt 4 (by omega)) (by decide),
    recordsOf_fileRefLine_cons (hfmt 6 (by omega)) (by decide),
    recordsOf_fileRefLine_cons (hfmt 8 (by omega)) (by decide)]
  rfl

theorem count_eq_one_of_mem_nodup {a : Str} : ∀ {l : List Str},
    l.Nodup → a ∈ l → List.count a l = 1 := by
  intro l
  induction l with
  | nil => intro _ h; simp at h
  | cons b l ih =>
    intro hnd hm
    rw [List.count_cons]
    rcases List.mem_cons.mp hm with rfl | h
    · rw [List.count_eq_zero.mpr (List.nodup_cons.mp hnd).1]
      simp
    · have hne : (b == a) = false := by
        cases hb : (b == a) with
        | false => rfl
        | true =>
          have he : b = a := eq_of_beq hb
          subst he
          exact absurd h (List.nodup_cons.mp hnd).1
      rw [ih (List.nodup_cons.mp hnd).2 h, hne]
      simp

theorem write_mem_runScript (gen : Nat → Str) (disk : Str) :
    RunEvent.writeFile project_file (add_files_to_xcode_project gen disk) ∈
      runScript true gen disk := by
  unfold runScript
  simp

/-- **C2 (amended).**  For a run over a manifest whose two record sections
are well-formed (located once, body ending in one trailing newline) and whose
designated groups' and build phase's patterns match, each matched prefix
occurring once in the text it is searched in, and whose ten minted
identifiers are 24-character uppercase-hex with the five file-reference ones
pairwise distinct and absent from the file-reference section: each
InsertionRequest contributes exactly one build-file record (whose `fileRef`
field carries the same request's file-reference identifier), exactly one
file-reference record, exactly one group-membership line appended to its
designated group's children list, and exactly one build-phase membership
line appended to the `Sources` file list; and each inserted file-reference
identifier then heads exactly one record of the resulting file-reference
section.  Without the distinctness assumptions the resolution part fails,
see the counterexample. -/
theorem insertion_triples
    (gen : Nat → Str) (content p1 B1 r1 p2 B2 r2 g1 u1 v1 g2 u2 v2 g3 u3 v3 : Str)
    (hf1 : findBetween beginBuildFile endBuildFile content = some (p1, B1, r1))
    (hs1 : splitFirst B1 content = some (p1 ++ beginBuildFile, endBuildFile ++ r1))
    (hn1 : splitFirst B1 (endBuildFile ++ r1) = none)
    (hc1 : B1 = rstrip B1 ++ str "\n")
    (hf2 : findBetween beginFileRef endFileRef
        (stepBuildFile (file_refs gen) (build_refs gen) content) = some (p2, B2, r2))
    (hs2 : splitFirst B2 (stepBuildFile (file_refs gen) (build_refs gen) content) =
        some (p2 ++ beginFileRef, endFileRef ++ r2))
    (hn2 : splitFirst B2 (endFileRef ++ r2) = none)
    (hc2 : B2 = rstrip B2 ++ str "\n")
    (hm3 : matchBlock litServices innerChildren
        (stepFileRef (file_refs gen) (stepBuildFile (file_refs gen) (build_refs gen) content)) =
        some g1)
    (hg3 : g1 ≠ [])
    (hs3 : splitFirst g1
        (stepFileRef (file_refs gen) (stepBuildFile (file_refs gen) (build_refs gen) content)) =
        some (u1, v1))
    (hn3 : splitFirst g1 v1 = none)
    (hm4 : matchBlock litViewControllers innerChildren
        (stepServices (file_refs gen)
          (stepFileRef (file_refs gen)
            (stepBuildFile (file_refs gen) (build_refs gen) content))) = some g2)
    (hg4 : g2 ≠ [])
    (hs4 : splitFirst g2
        (stepServices (file_refs gen)
          (stepFileRef (file_refs gen)
            (stepBuildFile (file_refs gen) (build_refs gen) content))) = some (u2, v2))
    (hn4 : splitFirst g2 v2 = none)
    (hm5 : matchBlock litSources innerFiles
        (stepViewControllers (file_refs gen)
          (stepServices (file_refs gen)
            (stepFileRef (file_refs gen)
              (stepBuildFile (file_refs gen) (build_refs gen) content)))) = some g3)
    (hg5 : g3 ≠ [])
    (hs5 : splitFirst g3
        (stepViewControllers (file_refs gen)
          (stepServices (file_refs gen)
            (stepFileRef (file_refs gen)
              (stepBuildFile (file_refs gen) (build_refs gen) content)))) = some (u3, v3))
    (hn5 : splitFirst g3 v3 = none)
    (hfmt : ∀ k, k < 10 → idFormat (mkId (gen k)))
    (hfresh : ∀ f ∈ [mkId (gen 0), mkId (gen 2), mkId (gen 4), mkId (gen 6), mkId (gen 8)],
        f ∉ recordsOf B2)
    (hdist : [mkId (gen 0), mkId (gen 2), mkId (gen 4), mkId (gen 6), mkId (gen 8)].Nodup) :
    stepBuildFile (file_refs gen) (build_refs gen) content =
        p1 ++ beginBuildFile ++
          (B1 ++ newBuildEntries (file_refs gen) (build_refs gen)) ++ endBuildFile ++ r1 ∧
    stepFileRef (file_refs gen) (stepBuildFile (file_refs gen) (build_refs gen) content) =
        p2 ++ beginFileRef ++ (B2 ++ newFileRefEntries (file_refs gen)) ++ endFileRef ++ r2 ∧
    stepServices (file_refs gen)
        (stepFileRef (file_refs gen) (stepBuildFile (file_refs gen) (build_refs gen) content)) =
        u1 ++ (g1 ++ newServicesText (file_refs gen)) ++ v1 ∧
    stepViewControllers (file_refs gen)
        (stepServices (file_refs gen)
          (stepFileRef (file_refs gen)
            (stepBuildFile (file_refs gen) (build_refs gen) content))) =
        u2 ++ (g2 ++ newVCText (file_refs gen)) ++ v2 ∧
    add_files_to_xcode_project gen content =
        u3 ++ (g3 ++ newSourcesText (build_refs gen)) ++ v3 ∧
    recordsOf (B1 ++ newBuildEntries (file_refs gen) (build_refs gen)) =
        recordsOf B1 ++ [mkId (gen 1), mkId (gen 3), mkId (gen 5), mkId (gen 7), mkId (gen 9)] ∧
    recordsOf (B2 ++ newFileRefEntries (file_refs gen)) =
        recordsOf B2 ++ [mkId (gen 0), mkId (gen 2), mkId (gen 4), mkId (gen 6), mkId (gen 8)] ∧
    buildEntryLines (file_refs gen) (build_refs gen) =
        [buildFileLine (mkId (gen 1)) (mkId (gen 0)) nameAuto,
         buildFileLine (mkId (gen 3)) (mkId (gen 2)) nameUrinary,
         buildFileLine (mkId (gen 5)) (mkId (gen 4)) nameCoreML,
         buildFileLine (mkId (gen 7)) (mkId (gen 6)) nameModern,
         buildFileLine (mkId (gen 9)) (mkId (gen 8)) nameHeader] ∧
    servicesLines (file_refs gen) =
        [childLine (mkId (gen 0)) nameAuto,
         childLine (mkId (gen 2)) nameUrinary,
         childLine (mkId (gen 4)) nameCoreML] ∧
    vcLines (file_refs gen) =
        [childLine (mkId (gen 6)) nameModern,
         childLine (mkId (gen 8)) nameHeader] ∧
    sourcesLinesList (build_refs gen) =
        [sourcesLine (mkId (gen 1)) nameAuto,
         sourcesLine (mkId (gen 3)) nameUrinary,
         sourcesLine (mkId (gen 5)) nameCoreML,
         sourcesLine (mkId (gen 7)) nameModern,
         sourcesLine (mkId (gen 9)) nameHeader] ∧
    ∀ f ∈ [mkId (gen 0), mkId (gen 2), mkId (gen 4), mkId (gen 6), mkId (gen 8)],
      List.count f (recordsOf (B2 ++ newFileRefEntries (file_refs gen))) = 1 := by
  have hT1 : NlTerminated B1 := nlTerminated_of_trailing ⟨rstrip B1, hc1⟩
  have hT2 : NlTerminated B2 := nlTerminated_of_trailing ⟨rstrip B2, hc2⟩
  have hr1 : recordsOf (B1 ++ newBuildEntries (file_refs gen) (build_refs gen)) =
      recordsOf B1 ++ [mkId (gen 1), mkId (gen 3), mkId (gen 5), mkId (gen 7), mkId (gen 9)] := by
    rw [recordsOf_append hT1, recordsOf_newBuildEntries gen hfmt]
  have hr2 : recordsOf (B2 ++ newFileRefEntries (file_refs gen)) =
      recordsOf B2 ++ [mkId (gen 0), mkId (gen 2), mkId (gen 4), mkId (gen 6), mkId (gen 8)] := by
    rw [recordsOf_append hT2, recordsOf_newFileRefEntries gen hfmt]
  refine ⟨?_, ?_, ?_, ?_, ?_, hr1, hr2, rfl, rfl, rfl, rfl, ?_⟩
  · rw [stepBuildFile_apply hf1 hs1 hn1, ← hc1]
    try simp [List.append_assoc]
  · rw [stepFileRef_apply hf2 hs2 hn2, ← hc2]
    try simp [List.append_assoc]
  · rw [stepServices_apply hm3 hg3 hs3 hn3]
    try simp [List.append_assoc]
  · rw [stepViewControllers_apply hm4 hg4 hs4 hn4]
    try simp [List.append_assoc]
  · rw [add_files_to_xcode_project, stepSources_apply hm5 hg5 hs5 hn5]
    try simp [List.append_assoc]
  · intro f hf
    rw [hr2, List.count_append]
    have h0 : List.count f (recordsOf B2) = 0 := List.count_eq_zero.mpr (hfresh f hf)
    have h1 : List.count f
        [mkId (gen 0), mkId (gen 2), mkId (gen 4), mkId (gen 6), mkId (gen 8)] = 1 :=
      count_eq_one_of_mem_nodup hdist hf
    rw [h0, h1]

/-- **C3 (amended).**  Provided the two record sections are well-formed, the
ten minted identifiers are well-formed, and the minted identifiers together
with the pre-existing record identifiers of the two sections are pairwise
distinct, the record identifiers of the two record sections after the run are
pairwise distinct.  For some outcomes of the random generation the
distinctness assumption is false and the conclusion fails (the code performs
no collision check), see the counterexample. -/
theorem minted_ids_distinct
    (gen : Nat → Str) (content p1 B1 r1 p2 B2 r2 : Str)
    (hf1 : findBetween beginBuildFile endBuildFile content = some (p1, B1, r1))
    (hs1 : splitFirst B1 content = some (p1 ++ beginBuildFile, endBuildFile ++ r1))
    (hn1 : splitFirst B1 (endBuildFile ++ r1) = none)
    (hc1 : B1 = rstrip B1 ++ str "\n")
    (hf2 : findBetween beginFileRef endFileRef
        (stepBuildFile (file_refs gen) (build_refs gen) content) = some (p2, B2, r2))
    (hs2 : splitFirst B2 (stepBuildFile (file_refs gen) (build_refs gen) content) =
        some (p2 ++ beginFileRef, endFileRef ++ r2))
    (hn2 : splitFirst B2 (endFileRef ++ r2) = none)
    (hc2 : B2 = rstrip B2 ++ str "\n")
    (hfmt : ∀ k, k < 10 → idFormat (mkId (gen k)))
    (hnodup : ((recordsOf B1 ++ recordsOf B2) ++
        ([mkId (gen 1), mkId (gen 3), mkId (gen 5), mkId (gen 7), mkId (gen 9)] ++
          [mkId (gen 0), mkId (gen 2), mkId (gen 4), mkId (gen 6), mkId (gen 8)])).Nodup) :
    stepBuildFile (file_refs gen) (build_refs gen) content =
        p1 ++ beginBuildFile ++
          (B1 ++ newBuildEntries (file_refs gen) (build_refs gen)) ++ endBuildFile ++ r1 ∧
    stepFileRef (file_refs gen) (stepBuildFile (file_refs gen) (build_refs gen) content) =
        p2 ++ beginFileRef ++ (B2 ++ newFileRefEntries (file_refs gen)) ++ endFileRef ++ r2 ∧
    (recordsOf (B1 ++ newBuildEntries (file_refs gen) (build_refs gen)) ++
      recordsOf (B2 ++ newFileRefEntries (file_refs gen))).Nodup := by
  have hT1 : NlTerminated B1 := nlTerminated_of_trailing ⟨rstrip B1, hc1⟩
  have hT2 : NlTerminated B2 := nlTerminated_of_trailing ⟨rstrip B2, hc2⟩
  refine ⟨?_, ?_, ?_⟩
  · rw [stepBuildFile_apply hf1 hs1 hn1, ← hc1]
    try simp [List.append_assoc]
  · rw [stepFileRef_apply hf2 hs2 hn2, ← hc2]
    try simp [List.append_assoc]
  · rw [recordsOf_append hT1, recordsOf_newBuildEntries gen hfmt,
      recordsOf_append hT2, recordsOf_newFileRefEntries gen hfmt]
    have hperm : ((recordsOf B1 ++ recordsOf B2) ++
        ([mkId (gen 1), mkId (gen 3), mkId (gen 5), mkId (gen 7), mkId (gen 9)] ++
          [mkId (gen 0), mkId (gen 2), mkId (gen 4), mkId (gen 6), mkId (gen 8)])).Perm
        ((recordsOf B1 ++
          [mkId (gen 1), mkId (gen 3), mkId (gen 5), mkId (gen 7), mkId (gen 9)]) ++
         (recordsOf B2 ++
          [mkId (gen 0), mkId (gen 2), mkId (gen 4), mkId (gen 6), mkId (gen 8)])) := by
      have h1 : (recordsOf B1 ++ recordsOf B2) ++
          ([mkId (gen 1), mkId (gen 3), mkId (gen 5), mkId (gen 7), mkId (gen 9)] ++
            [mkId (gen 0), mkId (gen 2), mkId (gen 4), mkId (gen 6), mkId (gen 8)]) =
          recordsOf B1 ++ (recordsOf B2 ++
            ([mkId (gen 1), mkId (gen 3), mkId (gen 5), mkId (gen 7), mkId (gen 9)] ++
              [mkId (gen 0), mkId (gen 2), mkId (gen 4), mkId (gen 6), mkId (gen 8)])) := by
        simp [List.append_assoc]
      have h2 : (recordsOf B1 ++
            [mkId (gen 1), mkId (gen 3), mkId (gen 5), mkId (gen 7), mkId (gen 9)]) ++
          (recordsOf B2 ++
            [mkId (gen 0), mkId (gen 2), mkId (gen 4), mkId (gen 6), mkId (gen 8)]) =
          recordsOf B1 ++
            ([mkId (gen 1), mkId (gen 3), mkId (gen 5), mkId (gen 7), mkId (gen 9)] ++
              (recordsOf B2 ++
                [mkId (gen 0), mkId (gen 2), mkId (gen 4), mkId (gen 6), mkId (gen 8)])) := by
        simp [List.append_assoc]
      rw [h1, h2]
      refine List.Perm.append_left _ ?_
      have h3 : recordsOf B2 ++
          ([mkId (gen 1), mkId (gen 3), mkId (gen 5), mkId (gen 7), mkId (gen 9)] ++
            [mkId (gen 0), mkId (gen 2), mkId (gen 4), mkId (gen 6), mkId (gen 8)]) =
          (recordsOf B2 ++
            [mkId (gen 1), mkId (gen 3), mkId (gen 5), mkId (gen 7), mkId (gen 9)]) ++
            [mkId (gen 0), mkId (gen 2), mkId (gen 4), mkId (gen 6), mkId (gen 8)] := by
        simp [List.append_assoc]
      have h4 : [mkId (gen 1), mkId (gen 3), mkId (gen 5), mkId (gen 7), mkId (gen 9)] ++
          (recordsOf B2 ++
            [mkId (gen 0), mkId (gen 2), mkId (gen 4), mkId (gen 6), mkId (gen 8)]) =
          ([mkId (gen 1), mkId (gen 3), mkId (gen 5), mkId (gen 7), mkId (gen 9)] ++
            recordsOf B2) ++
            [mkId (gen 0), mkId (gen 2), mkId (gen 4), mkId (gen 6), mkId (gen 8)] := by
        simp [List.append_assoc]
      rw [h3, h4]
      exact List.perm_append_comm.append_right _
    exact hperm.nodup hnodup

/-- **C4 (amended).**  The identifier allocator performs no verification and
never fails: each identifier is simply the first 24 characters of the
hyphen-stripped uppercased raw draw, computed independently of the manifest
content, accepted unconditionally — even when it already occurs among the
manifest's records (the theorem has no freshness assumption) — and the run
always proceeds to write the patched manifest; nothing like
`AllocationExhausted` exists. -/
theorem allocator_accepts_unconditionally
    (gen : Nat → Str) (content p2 B2 r2 : Str)
    (hf2 : findBetween beginFileRef endFileRef
        (stepBuildFile (file_refs gen) (build_refs gen) content) = some (p2, B2, r2))
    (hs2 : splitFirst B2 (stepBuildFile (file_refs gen) (build_refs gen) content) =
        some (p2 ++ beginFileRef, endFileRef ++ r2))
    (hn2 : splitFirst B2 (endFileRef ++ r2) = none)
    (hc2 : B2 = rstrip B2 ++ str "\n")
    (hfmt : ∀ k, k < 10 → idFormat (mkId (gen k))) :
    file_refs gen = [(nameAuto, mkId (gen 0)), (nameUrinary, mkId (gen 2)),
        (nameCoreML, mkId (gen 4)), (nameModern, mkId (gen 6)), (nameHeader, mkId (gen 8))] ∧
    stepFileRef (file_refs gen) (stepBuildFile (file_refs gen) (build_refs gen) content) =
        p2 ++ beginFileRef ++ (B2 ++ newFileRefEntries (file_refs gen)) ++ endFileRef ++ r2 ∧
    recordsOf (B2 ++ newFileRefEntries (file_refs gen)) =
        recordsOf B2 ++ [mkId (gen 0), mkId (gen 2), mkId (gen 4), mkId (gen 6), mkId (gen 8)] ∧
    RunEvent.writeFile project_file (add_files_to_xcode_project gen content) ∈
        runScript true gen content := by
  have hT2 : NlTerminated B2 := nlTerminated_of_trailing ⟨rstrip B2, hc2⟩
  refine ⟨rfl, ?_, ?_, write_mem_runScript gen content⟩
  · rw [stepFileRef_apply hf2 hs2 hn2, ← hc2]
    try simp [List.append_assoc]
  · rw [recordsOf_append hT2, recordsOf_newFileRefEntries gen hfmt]

/-! ## Identifier generators for the record-level witnesses -/

/-- A deterministic stand-in for `uuid4` draws: draw `k` starts with the
`k`-th decimal digit, followed by a fixed hyphenated tail of lowercase
hexadecimal characters (32 hexadecimal characters in total). -/
def u_gen : Nat → Str := fun k =>
  (str "0123456789").getD k '0' :: str "aaaaaa-aaaa-4aaa-8aaa-aaaaaaaaaaaaa"

/-- A generation outcome in which every draw is the same string, so every
minted identifier collides with every other. -/
def k_gen : Nat → Str := fun _ => str "aaaaaaaa-aaaa-4aaa-8aaa-aaaaaaaaaaaa"

def u_p2 : Str :=
  w_p1 ++ beginBuildFile ++ w_B1 ++
    newBuildEntries (file_refs u_gen) (build_refs u_gen) ++ endBuildFile ++ w_mid1

theorem u_hf2 : findBetween beginFileRef endFileRef
    (stepBuildFile (file_refs u_gen) (build_refs u_gen) w_manifest) =
      some (u_p2, w_B2, w_rest) :=
  eq_of_beq (by decide)

theorem u_hs2 : splitFirst w_B2
    (stepBuildFile (file_refs u_gen) (build_refs u_gen) w_manifest) =
      some (u_p2 ++ beginFileRef, endFileRef ++ w_rest) :=
  eq_of_beq (by decide)

def u_u1 : Str :=
  u_p2 ++ beginFileRef ++ w_B2 ++ newFileRefEntries (file_refs u_gen) ++ endFileRef ++ w_ra

def u_u2 : Str := u_u1 ++ w_g1 ++ newServicesText (file_refs u_gen) ++ w_rc

def u_u3 : Str := u_u2 ++ w_g2 ++ newVCText (file_refs u_gen) ++ w_re

theorem u_hm3 : matchBlock litServices innerChildren
    (stepFileRef (file_refs u_gen)
      (stepBuildFile (file_refs u_gen) (build_refs u_gen) w_manifest)) = some w_g1 :=
  eq_of_beq (by decide)

theorem u_hs3 : splitFirst w_g1
    (stepFileRef (file_refs u_gen)
      (stepBuildFile (file_refs u_gen) (build_refs u_gen) w_manifest)) =
      some (u_u1, w_v1) :=
  eq_of_beq (by decide)

theorem u_hm4 : matchBlock litViewControllers innerChildren
    (stepServices (file_refs u_gen)
      (stepFileRef (file_refs u_gen)
        (stepBuildFile (file_refs u_gen) (build_refs u_gen) w_manifest))) = some w_g2 :=
  eq_of_beq (by decide)

theorem u_hs4 : splitFirst w_g2
    (stepServices (file_refs u_gen)
      (stepFileRef (file_refs u_gen)
        (stepBuildFile (file_refs u_gen) (build_refs u_gen) w_manifest))) =
      some (u_u2, w_v2) :=
  eq_of_beq (by decide)

theorem u_hm5 : matchBlock litSources innerFiles
    (stepViewControllers (file_refs u_gen)
      (stepServices (file_refs u_gen)
        (stepFileRef (file_refs u_gen)
          (stepBuildFile (file_refs u_gen) (build_refs u_gen) w_manifest)))) = some w_g3 :=
  eq_of_beq (by decide)

theorem u_hs5 : splitFirst w_g3
    (stepViewControllers (file_refs u_gen)
      (stepServices (file_refs u_gen)
        (stepFileRef (file_refs u_gen)
          (stepBuildFile (file_refs u_gen) (build_refs u_gen) w_manifest)))) =
      some (u_u3, w_v3) :=
  eq_of_beq (by decide)

/-- **C2 (amended), witness.** -/
theorem insertion_triples_w :
    stepServices (file_refs u_gen)
        (stepFileRef (file_refs u_gen)
          (stepBuildFile (file_refs u_gen) (build_refs u_gen) w_manifest)) =
        u_u1 ++ (w_g1 ++ newServicesText (file_refs u_gen)) ++ w_v1 ∧
    recordsOf (w_B2 ++ newFileRefEntries (file_refs u_gen)) =
        recordsOf w_B2 ++
          [mkId (u_gen 0), mkId (u_gen 2), mkId (u_gen 4), mkId (u_gen 6), mkId (u_gen 8)] ∧
    ∀ f ∈ [mkId (u_gen 0), mkId (u_gen 2), mkId (u_gen 4), mkId (u_gen 6), mkId (u_gen 8)],
      List.count f (recordsOf (w_B2 ++ newFileRefEntries (file_refs u_gen))) = 1 := by
  have h := insertion_triples u_gen w_manifest w_p1 w_B1 w_r1 u_p2 w_B2 w_rest
    w_g1 u_u1 w_v1 w_g2 u_u2 w_v2 w_g3 u_u3 w_v3
    w_hf1 w_hs1 w_hn1 w_hc1 u_hf2 u_hs2 w_hn2 w_hc2
    u_hm3 w_hg3 u_hs3 w_hn3 u_hm4 w_hg4 u_hs4 w_hn4 u_hm5 w_hg5 u_hs5 w_hn5
    (by decide) (by decide) (by decide)
  exact ⟨h.2.2.1, h.2.2.2.2.2.2.1, h.2.2.2.2.2.2.2.2.2.2.2⟩

/-- **C2 (counterexample).**  For the generation outcome in which every raw
draw is the same string, the run inserts five file-reference records all
headed by the same identifier into the file-reference section of
`w_manifest`; the inserted build-step membership records reference that
identifier, which therefore resolves to five file-reference records in the
resulting manifest, not exactly one. -/
theorem insertion_triples_cx :
    (findBetween beginFileRef endFileRef
        (add_files_to_xcode_project k_gen w_manifest)).map
      (fun t => List.count (mkId (k_gen 0)) (recordsOf t.2.1)) = some 5 :=
  eq_of_beq (by decide)

/-- **C3 (amended), witness.** -/
theorem minted_ids_distinct_w :
    (recordsOf (w_B1 ++ newBuildEntries (file_refs u_gen) (build_refs u_gen)) ++
      recordsOf (w_B2 ++ newFileRefEntries (file_refs u_gen))).Nodup := by
  have h := minted_ids_distinct u_gen w_manifest w_p1 w_B1 w_r1 u_p2 w_B2 w_rest
    w_hf1 w_hs1 w_hn1 w_hc1 u_hf2 u_hs2 w_hn2 w_hc2
    (by decide) (by decide)
  exact h.2.2

/-- **C3 (counterexample).**  For the all-draws-equal generation outcome, the
resulting manifest's file-reference section carries five records with the
same identifier: identifiers in the resulting manifest are not pairwise
distinct. -/
theorem minted_ids_distinct_cx :
    (findBetween beginFileRef endFileRef
        (add_files_to_xcode_project k_gen w_manifest)).map (fun t => recordsOf t.2.1) =
      some (str "A00000000000000000000000" :: List.replicate 5 (mkId (k_gen 0))) ∧
    ¬ (str "A00000000000000000000000" :: List.replicate 5 (mkId (k_gen 0))).Nodup :=
  ⟨eq_of_beq (by decide), by decide⟩

/-! ## A manifest that already contains a to-be-minted identifier -/

def cx4_B2 : Str :=
  str "\n\t\t" ++ mkId (u_gen 0) ++
    str " /* Old.swift */ = \x7bisa = PBXFileReference; path = Old.swift; \x7d;\n"

def cx4_r1 : Str := w_mid1 ++ beginFileRef ++ cx4_B2 ++ endFileRef ++ w_rest

def cx4_manifest : Str := w_p1 ++ beginBuildFile ++ w_B1 ++ endBuildFile ++ cx4_r1

def cx4_p2 : Str :=
  w_p1 ++ beginBuildFile ++ w_B1 ++
    newBuildEntries (file_refs u_gen) (build_refs u_gen) ++ endBuildFile ++ w_mid1

theorem c4_hf2 : findBetween beginFileRef endFileRef
    (stepBuildFile (file_refs u_gen) (build_refs u_gen) cx4_manifest) =
      some (cx4_p2, cx4_B2, w_rest) :=
  eq_of_beq (by decide)

theorem c4_hs2 : splitFirst cx4_B2
    (stepBuildFile (file_refs u_gen) (build_refs u_gen) cx4_manifest) =
      some (cx4_p2 ++ beginFileRef, endFileRef ++ w_rest) :=
  eq_of_beq (by decide)

theorem c4_hn2 : splitFirst cx4_B2 (endFileRef ++ w_rest) = none :=
  eq_of_beq (by decide)

theorem c4_hc2 : cx4_B2 = rstrip cx4_B2 ++ str "\n" :=
  eq_of_beq (by decide)

/-- **C4 (amended), witness.**  Instantiated at a manifest that already
contains the identifier about to be minted for the first file: the allocator
still accepts it and the run writes. -/
theorem allocator_accepts_unconditionally_w :
    recordsOf (cx4_B2 ++ newFileRefEntries (file_refs u_gen)) =
        recordsOf cx4_B2 ++
          [mkId (u_gen 0), mkId (u_gen 2), mkId (u_gen 4), mkId (u_gen 6), mkId (u_gen 8)] ∧
    RunEvent.writeFile project_file (add_files_to_xcode_project u_gen cx4_manifest) ∈
        runScript true u_gen cx4_manifest := by
  have h := allocator_accepts_unconditionally u_gen cx4_manifest cx4_p2 cx4_B2 w_rest
    c4_hf2 c4_hs2 c4_hn2 c4_hc2 (by decide)
  exact ⟨h.2.2.1, h.2.2.2⟩

/-- **C4 (counterexample).**  The manifest `cx4_manifest` already contains a
record headed by the very identifier the allocator mints for the first file
(first conjunct).  The run does not verify the candidate against the
existing identifiers: it accepts it, the resulting file-reference section
carries that identifier twice (second conjunct), and the run completes with
a write instead of failing with anything like `AllocationExhausted` (third
conjunct). -/
theorem allocator_accepts_unconditionally_cx :
    mkId (u_gen 0) ∈ recordsOf cx4_B2 ∧
    (findBetween beginFileRef endFileRef
        (add_files_to_xcode_project u_gen cx4_manifest)).map
      (fun t => List.count (mkId (u_gen 0)) (recordsOf t.2.1)) = some 2 ∧
    RunEvent.writeFile project_file (add_files_to_xcode_project u_gen cx4_manifest) ∈
        runScript true u_gen cx4_manifest :=
  ⟨by decide, eq_of_beq (by decide), write_mem_runScript u_gen cx4_manifest⟩

/-! ## C5, C6: missing sections and groups are silently skipped -/

/-- **C5 (amended).**  When a required section's marker pair is missing, the
run reports no error: that section's insertion is silently skipped (the
build-file step leaves the text unchanged), the remaining steps still run,
and the manifest is still written, with the success summary printed. -/
theorem missing_section_skipped (gen : Nat → Str) (content : Str)
    (h : findBetween beginBuildFile endBuildFile content = none) :
    add_files_to_xcode_project gen content =
      stepSources (build_refs gen)
        (stepViewControllers (file_refs gen)
          (stepServices (file_refs gen) (stepFileRef (file_refs gen) content))) ∧
    runScript true gen content =
      RunEvent.readFile project_file content ::
      RunEvent.copyFile project_file backup_path content ::
      RunEvent.writeFile project_file (add_files_to_xcode_project gen content) ::
      summaryLines.map RunEvent.printLine := by
  constructor
  · rw [add_files_to_xcode_project, stepBuildFile_skip h]
  · rfl

/-- A manifest with no `PBXBuildFile` section markers at all (the
file-reference section and the groups are present). -/
def cx5_manifest : Str := w_p1 ++ beginFileRef ++ w_B2 ++ endFileRef ++ w_rest

/-- **C5 (amended), witness.** -/
theorem missing_section_skipped_w :
    add_files_to_xcode_project w_gen cx5_manifest =
      stepSources (build_refs w_gen)
        (stepViewControllers (file_refs w_gen)
          (stepServices (file_refs w_gen) (stepFileRef (file_refs w_gen) cx5_manifest))) ∧
    runScript true w_gen cx5_manifest =
      RunEvent.readFile project_file cx5_manifest ::
      RunEvent.copyFile project_file backup_path cx5_manifest ::
      RunEvent.writeFile project_file (add_files_to_xcode_project w_gen cx5_manifest) ::
      summaryLines.map RunEvent.printLine :=
  missing_section_skipped w_gen cx5_manifest (eq_of_beq (by decide))

/-- **C5 (counterexample).**  On a manifest whose build-file section markers
are missing, the run does not report `SectionNotFound` (its trace is the
ordinary success trace ending in the printed summary) and does not leave the
manifest byte-identical: the other sections' insertions are still applied
and written. -/
theorem missing_section_skipped_cx :
    runScript true w_gen cx5_manifest =
      RunEvent.readFile project_file cx5_manifest ::
      RunEvent.copyFile project_file backup_path cx5_manifest ::
      RunEvent.writeFile project_file (add_files_to_xcode_project w_gen cx5_manifest) ::
      summaryLines.map RunEvent.printLine ∧
    add_files_to_xcode_project w_gen cx5_manifest ≠ cx5_manifest :=
  ⟨rfl, ne_of_beq_eq_false (by decide)⟩

/-- **C6 (amended).**  When the designated target group's pattern does not
match anywhere in the manifest, the run reports no error: the group's
membership insertions are silently skipped and the manifest is still written
with the other insertions applied, followed by the success summary. -/
theorem unknown_group_skipped (gen : Nat → Str) (content : Str)
    (h : matchBlock litServices innerChildren
      (stepFileRef (file_refs gen)
        (stepBuildFile (file_refs gen) (build_refs gen) content)) = none) :
    add_files_to_xcode_project gen content =
      stepSources (build_refs gen)
        (stepViewControllers (file_refs gen)
          (stepFileRef (file_refs gen)
            (stepBuildFile (file_refs gen) (build_refs gen) content))) ∧
    runScript true gen content =
      RunEvent.readFile project_file content ::
      RunEvent.copyFile project_file backup_path content ::
      RunEvent.writeFile project_file (add_files_to_xcode_project gen content) ::
      summaryLines.map RunEvent.printLine := by
  constructor
  · rw [add_files_to_xcode_project, stepServices_skip h]
  · rfl

/-- A manifest in which the record sections, the `ViewControllers` group and
the `Sources` build phase exist, but no `Core/Services` group does. -/
def cx6_manifest : Str :=
  w_p1 ++ beginBuildFile ++ w_B1 ++ endBuildFile ++ w_mid1 ++
    beginFileRef ++ w_B2 ++ endFileRef ++ (str "\n\n\t\tG2 " ++ w_g2 ++ w_re ++ w_g3 ++ w_rf)

/-- **C6 (amended), witness.** -/
theorem unknown_group_skipped_w :
    add_files_to_xcode_project w_gen cx6_manifest =
      stepSources (build_refs w_gen)
        (stepViewControllers (file_refs w_gen)
          (stepFileRef (file_refs w_gen)
            (stepBuildFile (file_refs w_gen) (build_refs w_gen) cx6_manifest))) ∧
    runScript true w_gen cx6_manifest =
      RunEvent.readFile project_file cx6_manifest ::
      RunEvent.copyFile project_file backup_path cx6_manifest ::
      RunEvent.writeFile project_file (add_files_to_xcode_project w_gen cx6_manifest) ::
      summaryLines.map RunEvent.printLine :=
  unknown_group_skipped w_gen cx6_manifest (eq_of_beq (by decide))

/-- **C6 (counterexample).**  On a manifest with no `Core/Services` group,
the run does not report `InvalidRequest` and does not leave the original
manifest unmutated: its trace is the ordinary success trace, and the written
content differs from the input (the record sections and the other lists are
still patched). -/
theorem unknown_group_skipped_cx :
    runScript true w_gen cx6_manifest =
      RunEvent.readFile project_file cx6_manifest ::
      RunEvent.copyFile project_file backup_path cx6_manifest ::
      RunEvent.writeFile project_file (add_files_to_xcode_project w_gen cx6_manifest) ::
      summaryLines.map RunEvent.printLine ∧
    add_files_to_xcode_project w_gen cx6_manifest ≠ cx6_manifest :=
  ⟨rfl, ne_of_beq_eq_false (by decide)⟩

/-! ## C7: the backup -/

/-- **C7 (confirmed).**  The backup path is derived from the original file
name by appending `.backup_add_files`; in every run the manifest is copied
verbatim to the backup path (second event) before the patched content is
written (third event), so after any run the backup holds the pre-run
manifest content; and if the backup copy fails, the script aborts and no
write of the manifest ever occurs. -/
theorem backup_before_write (gen : Nat → Str) (disk : Str) :
    backup_path = project_file ++ str ".backup_add_files" ∧
    runScript true gen disk =
      RunEvent.readFile project_file disk ::
      RunEvent.copyFile project_file backup_path disk ::
      RunEvent.writeFile project_file (add_files_to_xcode_project gen disk) ::
      summaryLines.map RunEvent.printLine ∧
    ∀ s : Str, RunEvent.writeFile project_file s ∉ runScript false gen disk := by
  refine ⟨rfl, rfl, ?_⟩
  intro s hs
  simp [runScript] at hs

/-! ## C9: shape of the minted identifiers -/

/-- The shape of a raw `uuid4` string draw relevant to the claim: stripping
the hyphens leaves 32 lowercase-hexadecimal characters. -/
abbrev uuid_format (u : Str) : Prop :=
  (u.filter fun c => c != '-').length = 32 ∧
    ∀ c ∈ u.filter fun c => c != '-', (str "0123456789abcdef").contains c = true

theorem toUpper_lowerHex {c : Char} (h : (str "0123456789abcdef").contains c = true) :
    isHexUpper c.toUpper = true := by
  have hall : ∀ a ∈ str "0123456789abcdef", isHexUpper a.toUpper = true := by decide
  exact hall c (List.mem_of_elem_eq_true h)

/-- **C9 (confirmed).**  For raw draws of the `uuid4` string shape, every
minted identifier is exactly 24 characters long, all drawn from the
uppercase hexadecimal alphabet; and each file mints two identifiers from two
separate draws: file `i` takes draw `2*i` for its file reference and draw
`2*i+1` for its build-file record. -/
theorem minted_ids_shape (gen : Nat → Str) (h : ∀ k, k < 10 → uuid_format (gen k)) :
    file_refs gen = [(nameAuto, mkId (gen 0)), (nameUrinary, mkId (gen 2)),
        (nameCoreML, mkId (gen 4)), (nameModern, mkId (gen 6)),
        (nameHeader, mkId (gen 8))] ∧
    build_refs gen = [(nameAuto, mkId (gen 1)), (nameUrinary, mkId (gen 3)),
        (nameCoreML, mkId (gen 5)), (nameModern, mkId (gen 7)),
        (nameHeader, mkId (gen 9))] ∧
    ∀ k, k < 10 → (mkId (gen k)).length = 24 ∧ ∀ c ∈ mkId (gen k), isHexUpper c = true := by
  refine ⟨rfl, rfl, ?_⟩
  intro k hk
  obtain ⟨hlen, hhex⟩ := h k hk
  constructor
  · unfold mkId
    rw [List.length_take, List.length_map, hlen]
    decide
  · intro c hc
    unfold mkId at hc
    have hc2 : c ∈ ((gen k).filter fun ch => ch != '-').map Char.toUpper :=
      List.mem_of_mem_take hc
    obtain ⟨c', hc', rfl⟩ := List.mem_map.mp hc2
    exact toUpper_lowerHex (hhex c' hc')

/-- **C9 (confirmed), witness.** -/
theorem minted_ids_shape_w :
    (mkId (u_gen 0)).length = 24 ∧ ∀ c ∈ mkId (u_gen 0), isHexUpper c = true :=
  (minted_ids_shape u_gen (by decide)).2.2 0 (by decide)

/-! ## C10: every run succeeds, writes and prints the full summary -/

/-- **C10 (confirmed).**  For every readable input manifest and every
generation outcome, the run terminates without reporting any error: its trace
is exactly read, backup copy, one write of the patched content, and the
success summary naming all five hardcoded files — even when section or group
patterns fail to match, in which case the corresponding insertions are
silently skipped but the write and the summary still happen. -/
theorem run_always_succeeds (gen : Nat → Str) (disk : Str) :
    runScript true gen disk =
      [RunEvent.readFile project_file disk,
       RunEvent.copyFile project_file backup_path disk,
       RunEvent.writeFile project_file (add_files_to_xcode_project gen disk),
       RunEvent.printLine (str "Added missing files to Xcode project:"),
       RunEvent.printLine (str "  - AutomaticSegmentationService.swift"),
       RunEvent.printLine (str "  - UrinaryTractSegmentationService.swift"),
       RunEvent.printLine (str "  - CoreMLSegmentationService.swift"),
       RunEvent.printLine (str "  - ModernStudyCell.swift"),
       RunEvent.printLine (str "  - StudyHeaderView.swift")] := rfl
